import Mathlib

/-!
Verification of the daily-log reconciliation service layer of a habit tracker.

The service layer talks to a remote record store (PocketBase).  We embed it as
deterministic state-threading functions over an explicit store model:

* machine strings are Lean `String` (a wrapper around `List Char` here);
* every remote call consumes one step of a fault oracle (`Env`), which can
  inject an error, override the returned record page (read noise / staleness),
  or fail a specific create; otherwise the call behaves as the ideal store;
* `St` carries the store contents together with observable bookkeeping:
  the number of store calls issued, the create operations attempted, the
  backoff delays slept, and the console warnings emitted;
* JavaScript exceptions become `Except` results; `try`/`catch` becomes a
  `match` on the callee result; numeric record fields are abstracted as `Int`
  (the service layer performs no arithmetic on them).
-/

namespace EightHundred

/-! ## String helpers

The source checks substring containment with `String.prototype.includes`.
We implement containment on the underlying character lists so that all
reasoning is by structural induction. -/

/-- Does `pat` occur as an initial segment of `l`? -/
def listHasInit (pat l : List Char) : Bool :=
  match pat, l with
  | [], _ => true
  | _ :: _, [] => false
  | p :: ps, c :: cs => p == c && listHasInit ps cs

/-- Does `pat` occur as a contiguous sublist of `l`? -/
def listHasSub (pat l : List Char) : Bool :=
  match l with
  | [] => listHasInit pat []
  | _ :: cs => listHasInit pat l || listHasSub pat cs

/-- JavaScript `s.includes(pat)`. -/
def strContains (s pat : String) : Bool :=
  listHasSub pat.data s.data

/-- Is the character `c` present in the list? -/
def hasChar (c : Char) : List Char → Bool
  | [] => false
  | x :: xs => x == c || hasChar c xs

/-- First segment of the list before the first `'T'`
(JavaScript `s.split('T')[0]`). -/
def takeUntilT : List Char → List Char
  | [] => []
  | c :: cs => if c == 'T' then [] else c :: takeUntilT cs

/-! ## Date Normalizer (source function `normalizeDate`) -/

/-- Normalize a date to `YYYY-MM-DD` format (no time), translated from the
source: `date.includes('T') ? date.split('T')[0] : date`. -/
def normalizeDate (date : String) : String :=
  if hasChar 'T' date.data then (takeUntilT date.data).asString else date

theorem hasChar_append (c : Char) (l₁ l₂ : List Char) :
    hasChar c (l₁ ++ l₂) = (hasChar c l₁ || hasChar c l₂) := by
  induction l₁ with
  | nil => simp [hasChar]
  | cons x xs ih => simp [hasChar, ih, Bool.or_assoc]

theorem takeUntilT_no_T (l : List Char) :
    hasChar 'T' (takeUntilT l) = false := by
  induction l with
  | nil => simp [takeUntilT, hasChar]
  | cons x xs ih =>
    by_cases hx : x = 'T'
    · simp [takeUntilT, hx, hasChar]
    · simp [takeUntilT, hx, hasChar, ih]

theorem takeUntilT_of_no_T (l : List Char) (h : hasChar 'T' l = false) :
    takeUntilT l = l := by
  induction l with
  | nil => rfl
  | cons x xs ih =>
    simp [hasChar, Bool.or_eq_false_iff] at h
    simp [takeUntilT, h.1, ih h.2]

theorem takeUntilT_append_T (l r : List Char) (h : hasChar 'T' l = false) :
    takeUntilT (l ++ 'T' :: r) = l := by
  induction l with
  | nil => simp [takeUntilT]
  | cons x xs ih =>
    simp [hasChar, Bool.or_eq_false_iff] at h
    simp [takeUntilT, h.1, ih h.2]

theorem data_asString (l : List Char) : (List.asString l).data = l := rfl

theorem normalizeDate_of_no_T (s : String) (h : hasChar 'T' s.data = false) :
    normalizeDate s = s := by
  simp [normalizeDate, h]

theorem normalizeDate_no_T (s : String) :
    hasChar 'T' (normalizeDate s).data = false := by
  cases hb : hasChar 'T' s.data
  · simp [normalizeDate, hb]
  · simp [normalizeDate, hb, data_asString, takeUntilT_no_T]

theorem normalizeDate_idem (s : String) :
    normalizeDate (normalizeDate s) = normalizeDate s :=
  normalizeDate_of_no_T _ (normalizeDate_no_T s)

theorem string_data_append (s t : String) : (s ++ t).data = s.data ++ t.data :=
  String.data_append s t

theorem normalizeDate_append_T (d r : String)
    (h : hasChar 'T' d.data = false) :
    normalizeDate (d ++ "T" ++ r) = d := by
  have hdata : (d ++ "T" ++ r).data = d.data ++ 'T' :: r.data := by
    simp [string_data_append]
  have hch : hasChar 'T' (d ++ "T" ++ r).data = true := by
    rw [hdata, hasChar_append]
    simp [hasChar]
  unfold normalizeDate
  rw [hch]
  simp only [hdata, takeUntilT_append_T d.data r.data h]
  cases d
  rfl

/-- Normalizing the ISO string the creators build from a normalized day gives
back the day key. -/
theorem normalizeDate_iso (x : String) :
    normalizeDate (normalizeDate x ++ "T00:00:00.000Z") = normalizeDate x := by
  have hsplit : (("T00:00:00.000Z" : String)) = "T" ++ "00:00:00.000Z" := rfl
  calc normalizeDate (normalizeDate x ++ "T00:00:00.000Z")
      = normalizeDate (normalizeDate x ++ "T" ++ "00:00:00.000Z") := by
        rw [hsplit, String.append_assoc]
    _ = normalizeDate x := normalizeDate_append_T _ _ (normalizeDate_no_T x)

/-- Characters of a zero-padded `YYYY-MM-DD` day key. -/
def isDayKeyChars : List Char → Bool
  | [y1, y2, y3, y4, c1, m1, m2, c2, d1, d2] =>
    y1.isDigit && y2.isDigit && y3.isDigit && y4.isDigit && c1 == '-' &&
    m1.isDigit && m2.isDigit && c2 == '-' && d1.isDigit && d2.isDigit
  | _ => false

/-- Specification predicate: the string is a zero-padded `YYYY-MM-DD` day key. -/
def isDayKey (s : String) : Bool :=
  isDayKeyChars s.data

theorem digit_ne_T (c : Char) (hc : c.isDigit = true) : (c == 'T') = false := by
  have hne : c ≠ 'T' := by
    intro he
    subst he
    exact absurd hc (by decide)
  simpa using hne

theorem no_T_of_isDayKeyChars (l : List Char) (h : isDayKeyChars l = true) :
    hasChar 'T' l = false := by
  unfold isDayKeyChars at h
  split at h
  · rename_i y1 y2 y3 y4 c1 m1 m2 c2 d1 d2
    simp only [Bool.and_eq_true, beq_iff_eq] at h
    obtain ⟨⟨⟨⟨⟨⟨⟨⟨⟨hy1, hy2⟩, hy3⟩, hy4⟩, hc1⟩, hm1⟩, hm2⟩, hc2⟩, hd1⟩, hd2⟩ := h
    subst hc1
    subst hc2
    simp [hasChar, digit_ne_T _ hy1, digit_ne_T _ hy2, digit_ne_T _ hy3,
      digit_ne_T _ hy4, digit_ne_T _ hm1, digit_ne_T _ hm2,
      digit_ne_T _ hd1, digit_ne_T _ hd2,
      (by decide : ((('-' : Char)) == 'T') = false)]
  · exact absurd h (by simp)

theorem no_T_of_isDayKey (s : String) (h : isDayKey s = true) :
    hasChar 'T' s.data = false :=
  no_T_of_isDayKeyChars s.data h

/-! ## Data model (source interfaces `Task`, `DailyLog`, `GoalProgress`) -/

/-- Source type `TaskType = 'daily' | 'goal'`. -/
inductive TaskType where
  | daily
  | goal
deriving DecidableEq

/-- Source type `DailyMode = 'checklist' | 'number'`. -/
inductive DailyMode where
  | checklist
  | numberMode
deriving DecidableEq

/-- Source interface `Task`.  Numeric fields are abstracted as `Int`. -/
structure Task where
  id : String
  name : String
  type : TaskType
  daily_mode : Option DailyMode
  target : Option Int
  unit : Option String
  user : String
  created : String
  updated : String
  description : Option String
  tag : Option String
deriving DecidableEq

/-- Source interface `DailyLog`. -/
structure DailyLog where
  id : String
  task : String
  date : String
  value_bool : Option Bool
  value_number : Option Int
  note : Option String
  user : String
  created : String
  updated : String
deriving DecidableEq

/-- Source interface `GoalProgress`. -/
structure GoalProgress where
  id : String
  task : String
  value : Int
  date : String
  user : String
  created : String
  updated : String
deriving DecidableEq

/-! ## Error model

PocketBase client errors carry a status, a message, and a per-field error
payload.  The source resolves the payload through several optional shapes
(`error.response.data.data`, `error.data.data`, `error.data`); we model the
resolved payload directly as an optional field-error map over the three
constrained fields. -/

/-- One field-level error entry of a PocketBase error payload. -/
structure FieldErr where
  code : String
  message : String
deriving DecidableEq

/-- The resolved per-field error payload of a create call on `daily_logs`
(the uniqueness constraint spans the `date`, `task` and `user` fields, and
the store may report it against any one of them). -/
structure ErrData where
  dateField : Option FieldErr
  taskField : Option FieldErr
  userField : Option FieldErr
deriving DecidableEq

/-- JavaScript `Object.values` over the resolved payload. -/
def ErrData.values (d : ErrData) : List FieldErr :=
  (d.dateField.toList) ++ (d.taskField.toList) ++ (d.userField.toList)

/-- A raw error coming back from the PocketBase client. -/
structure PBError where
  status : Option Nat
  message : String
  data : Option ErrData
deriving DecidableEq

/-- A thrown JavaScript error: either a raw store error re-thrown as-is, or
a fresh `new Error(message)`. -/
inductive Err where
  | pb (e : PBError)
  | msg (m : String)
deriving DecidableEq

/-- The `.message` accessor of a thrown error. -/
def Err.message : Err → String
  | .pb e => e.message
  | .msg m => m

/-- The auto-cancellation marker test used throughout the source:
`error.message && error.message.includes('autocancelled')`. -/
def isAutocancelled (e : PBError) : Bool :=
  strContains e.message "autocancelled"

/-! ## Store and effect model

Modelled from the spec: the remote record-store capability of section 6
(`query`/`create`/`update`/`delete` over the `tasks`, `daily_logs` and
`goal_progress` collections, with the unique constraint on
`(task, user, date)` of `daily_logs`).  The store itself is an external
collaborator of the repository; its ideal behaviour is taken from the spec,
while deviations from the ideal (failures, cancellations, stale or drifted
query results) are injected by the `Env` oracle. -/

/-- The remote store contents. -/
structure Store where
  tasks : List Task
  logs : List DailyLog
  progress : List GoalProgress
  nextId : Nat

/-- Fault oracle: call `n` (0-based, counted across all store calls of a run)
can fail with an injected error or, for a `daily_logs` query, return an
arbitrary record page instead of the ideal one.  `createFaults` additionally
fails the `daily_logs` create for a given task id (used to model per-task
create failures). -/
structure Env where
  faults : Nat → Option PBError
  noise : Nat → Option (List DailyLog)
  createFaults : String → Option PBError

/-- The fully ideal environment: no faults, no read noise. -/
def idealEnv : Env :=
  { faults := fun _ => none, noise := fun _ => none,
    createFaults := fun _ => none }

/-- Client-side observable state threaded through a run. -/
structure St where
  store : Store
  calls : Nat
  creates : List (String × String × String)
  delays : List Nat
  warns : List String

/-- Record a backoff sleep. -/
def pushDelay (s : St) (d : Nat) : St :=
  { s with delays := s.delays ++ [d] }

/-- Record a console warning. -/
def pushWarn (s : St) (w : String) : St :=
  { s with warns := s.warns ++ [w] }

/-- Modelled from the spec: the conjunction-of-predicates filter a
`daily_logs` query evaluates (user equality, optional task equality, optional
day-range restriction).  The source sends the range
`date >= day && date < day+1`; an ideal store resolves it to membership in
the requested calendar day, i.e. to equality of normalized day keys.  Range
drift is modelled by `Env.noise`. -/
def logMatches (u : String) (taskOpt dateOpt : Option String) (r : DailyLog) :
    Bool :=
  r.user == u &&
  (match taskOpt with
   | some t => r.task == t
   | none => true) &&
  (match dateOpt with
   | some d => normalizeDate r.date == normalizeDate d
   | none => true)

/-- Modelled from the spec: an ideal `daily_logs` query. -/
def storeQueryLogs (st : Store) (u : String) (taskOpt dateOpt : Option String) :
    List DailyLog :=
  st.logs.filter (logMatches u taskOpt dateOpt)

/-- The uniqueness-violation error the store reports when a create collides
with an existing `(task, user, date)` row; the constraint spans three fields
and the store reports it against one of them. -/
def uniqueViolationError : PBError :=
  { status := some 400, message := "Failed to create record.",
    data := some { dateField := some { code := "validation_not_unique",
                                       message := "Value must be unique." },
                   taskField := none, userField := none } }

/-- Modelled from the spec: an ideal `daily_logs` create, rejecting a second
record for the same `(task, user, day)` triple. -/
def storeCreateLog (st : Store) (tid date u : String) (vb : Option Bool) :
    Except PBError (DailyLog × Store) :=
  if st.logs.any (fun r =>
      r.task == tid && r.user == u &&
      normalizeDate r.date == normalizeDate date) then
    .error uniqueViolationError
  else
    let record : DailyLog :=
      { id := "log" ++ toString st.nextId, task := tid, date := date,
        value_bool := vb, value_number := none, note := none, user := u,
        created := "", updated := "" }
    .ok (record, { st with logs := st.logs ++ [record],
                           nextId := st.nextId + 1 })

/-- One `daily_logs` query call: consult the fault oracle, then the noise
oracle, then the ideal store. -/
def doQueryLogs (env : Env) (s : St) (u : String)
    (taskOpt dateOpt : Option String) : Except PBError (List DailyLog) × St :=
  let s1 := { s with calls := s.calls + 1 }
  match env.faults s.calls with
  | some e => (.error e, s1)
  | none =>
    match env.noise s.calls with
    | some rs => (.ok rs, s1)
    | none => (.ok (storeQueryLogs s.store u taskOpt dateOpt), s1)

/-- One `daily_logs` create call.  The attempted create is always recorded in
`St.creates`, whether or not it succeeds. -/
def doCreateLog (env : Env) (s : St) (tid date u : String) (vb : Option Bool) :
    Except PBError DailyLog × St :=
  let s1 := { s with calls := s.calls + 1,
                     creates := s.creates ++ [(tid, date, u)] }
  match env.faults s.calls with
  | some e => (.error e, s1)
  | none =>
    match env.createFaults tid with
    | some e => (.error e, s1)
    | none =>
      match storeCreateLog s.store tid date u vb with
      | .error e => (.error e, s1)
      | .ok (record, store1) => (.ok record, { s1 with store := store1 })

/-! ## Thrown error messages of the daily-log service layer -/

def authMsg : String := "User is not authenticated. Please sign in."

def accessDeniedMsg : String :=
  "Access denied. Please check your PocketBase collection rules."

def invalidLogFilterMsg (e : PBError) : String :=
  "Invalid filter syntax: " ++ e.message ++
  ". Please check that the fields exist in the daily_logs collection."

def fetchLogsFailMsg (e : PBError) : String :=
  "Failed to fetch daily logs: " ++ e.message

def fetchLogFailMsg (e : PBError) : String :=
  "Failed to fetch daily log: " ++ e.message

/-! ## Existence queries (source `getDailyLogs`, `getDailyLogByTaskAndDate`) -/

/-- Source `getDailyLogs` (authenticated part): one query; auto-cancellation
degrades to an empty page; when a date was requested the page is re-filtered
in memory on the normalized day key. -/
def getDailyLogsCore (env : Env) (s : St) (u : String)
    (taskOpt dateOpt : Option String) : Except Err (List DailyLog) × St :=
  let (r, s1) := doQueryLogs env s u taskOpt (dateOpt.map normalizeDate)
  match r with
  | .ok records =>
    match dateOpt with
    | some date =>
      let nd := normalizeDate date
      (.ok (records.filter (fun item => normalizeDate item.date == nd)), s1)
    | none => (.ok records, s1)
  | .error e =>
    if isAutocancelled e then (.ok [], s1)
    else if e.status == some 400 then (.error (.msg (invalidLogFilterMsg e)), s1)
    else if e.status == some 403 then (.error (.msg accessDeniedMsg), s1)
    else (.error (.msg (fetchLogsFailMsg e)), s1)

/-- The retry loop of source `getDailyLogByTaskAndDate`: up to 3 attempts
(`attempts` is instantiated with `[0, 1, 2]`); an auto-cancelled attempt
below index 2 sleeps `200 * (attempt + 1)` and retries, an auto-cancelled
last attempt returns `null`, any other error is thrown immediately; a
successful page is searched in memory for the exact normalized-day match. -/
def getLogByTaskAndDateLoop (env : Env) (u t nd : String) :
    List Nat → St → Except Err (Option DailyLog) × St
  | [], s => (.ok none, s)
  | attempt :: rest, s =>
    let (r, s1) := doQueryLogs env s u (some t) (some nd)
    match r with
    | .ok records =>
      (.ok (records.find? (fun item => normalizeDate item.date == nd)), s1)
    | .error e =>
      if isAutocancelled e then
        if attempt < 2 then
          getLogByTaskAndDateLoop env u t nd rest
            (pushDelay s1 (200 * (attempt + 1)))
        else (.ok none, s1)
      else if e.status == some 400 then
        (.error (.msg (invalidLogFilterMsg e)), s1)
      else if e.status == some 403 then
        (.error (.msg accessDeniedMsg), s1)
      else (.error (.msg (fetchLogFailMsg e)), s1)

/-- Source `getDailyLogByTaskAndDate` (authenticated part). -/
def getDailyLogByTaskAndDateCore (env : Env) (s : St) (u t date : String) :
    Except Err (Option DailyLog) × St :=
  getLogByTaskAndDateLoop env u t (normalizeDate date) [0, 1, 2] s

/-! ## Batch Reconciler (source `ensureDailyLogsExist`) -/

/-- Console warning the reconciler emits when the initial snapshot fetch
fails for a reason other than auto-cancellation. -/
def snapshotWarnMsg : String :=
  "Failed to fetch existing logs, will attempt individual checks"

/-- Console warning the reconciler emits when one task's create fails for a
reason other than a uniqueness violation. -/
def taskWarnMsg (tid : String) : String :=
  "Unexpected error creating log for task " ++ tid

/-- The unique-constraint heuristic of `ensureDailyLogsExist`: any of the
three constrained fields carrying `validation_not_unique`, any field error
mentioning `unique`, or the resolved message mentioning `unique` or
`already exists`. -/
def hasUniqueErrorEnsure (e : PBError) : Bool :=
  (match e.data with
   | some d =>
     d.dateField.any (fun f => f.code == "validation_not_unique") ||
     d.taskField.any (fun f => f.code == "validation_not_unique") ||
     d.userField.any (fun f => f.code == "validation_not_unique") ||
     d.values.any (fun f =>
       f.code == "validation_not_unique" || strContains f.message "unique")
   | none => false) ||
  strContains e.message.toLower "unique" ||
  strContains e.message.toLower "already exists"

/-- The per-task double-check loop of `ensureDailyLogsExist` (2 attempts):
a found log breaks out; a thrown auto-cancellation on the first attempt
sleeps 300 and retries; any other throw gives up the check. -/
def doubleCheck (env : Env) (s : St) (u tid nd : String) :
    Option DailyLog × St :=
  let (r0, s0) := getDailyLogByTaskAndDateCore env s u tid nd
  match r0 with
  | .ok (some log) => (some log, s0)
  | .ok none =>
    let (r1, s1) := getDailyLogByTaskAndDateCore env s0 u tid nd
    ((match r1 with
      | .ok o => o
      | .error _ => none), s1)
  | .error e =>
    if strContains e.message "autocancelled" then
      let (r1, s1) := getDailyLogByTaskAndDateCore env (pushDelay s0 300) u tid nd
      ((match r1 with
        | .ok o => o
        | .error _ => none), s1)
    else (none, s0)

/-- One iteration of the reconciler's per-task loop: double-check, then
create with default `value_bool = false`; a uniqueness violation (or any
400 with a payload) is skipped silently, every other create failure is
logged and skipped.  The date sent is the full ISO string of the normalized
day (the JavaScript `new Date(day + 'T00:00:00.000Z').toISOString()`
round-trip returns the string itself for a valid day key). -/
def ensureTaskStep (env : Env) (s : St) (u tid nd : String) : St :=
  let (existing, s1) := doubleCheck env s u tid nd
  match existing with
  | some _ => s1
  | none =>
    let iso := nd ++ "T00:00:00.000Z"
    let (cres, s2) := doCreateLog env s1 tid iso u (some false)
    match cres with
    | .ok _ => s2
    | .error e =>
      if hasUniqueErrorEnsure e || (e.status == some 400 && e.data.isSome) then
        s2
      else pushWarn s2 (taskWarnMsg tid)

/-- The reconciler's loop over the tasks still needing a log, strictly one
task at a time. -/
def ensureLoop (env : Env) (u nd : String) : List Task → St → St
  | [], s => s
  | task :: rest, s => ensureLoop env u nd rest (ensureTaskStep env s u task.id nd)

/-- Source `ensureDailyLogsExist` (authenticated part): snapshot all logs of
the day in one query (a failed snapshot degrades to the empty set, with a
warning unless it was an auto-cancellation), collect the task ids already
covered, and run the per-task loop over the uncovered tasks. -/
def ensureDailyLogsExistCore (env : Env) (s : St) (u : String)
    (tasks : List Task) (date : String) : St :=
  if tasks.length == 0 then s
  else
    let nd := normalizeDate date
    let (snap, s1) := getDailyLogsCore env s u none (some nd)
    let s2 :=
      match snap with
      | .ok _ => s1
      | .error e =>
        if strContains e.message "autocancelled" then s1
        else pushWarn s1 snapshotWarnMsg
    let existingLogs : List DailyLog :=
      match snap with
      | .ok ls => ls
      | .error _ => []
    let existingTaskIds :=
      (existingLogs.filter (fun log => normalizeDate log.date == nd)).map
        (fun log => log.task)
    let tasksNeedingLogs :=
      tasks.filter (fun task => !(existingTaskIds.contains task.id))
    ensureLoop env u nd tasksNeedingLogs s2

/-! ## Idempotent Creator (source `createDailyLogIfNeeded`) -/

/-- The pre-create probe loop of `createDailyLogIfNeeded` (3 attempts):
a found log breaks out; a thrown auto-cancellation before the last attempt
sleeps `200 * (attempt + 1)` and retries; any other outcome moves on to the
next attempt. -/
def preCheckLoop (env : Env) (u t nd : String) :
    List Nat → St → Option DailyLog × St
  | [], s => (none, s)
  | attempt :: rest, s =>
    let (r, s1) := getDailyLogByTaskAndDateCore env s u t nd
    match r with
    | .ok (some log) => (some log, s1)
    | .ok none => preCheckLoop env u t nd rest s1
    | .error e =>
      if strContains e.message "autocancelled" && attempt < 2 then
        preCheckLoop env u t nd rest (pushDelay s1 (200 * (attempt + 1)))
      else preCheckLoop env u t nd rest s1

/-- The unique-constraint test of `createDailyLogIfNeeded`: one of the three
constrained fields carries `validation_not_unique`. -/
def hasUniqueErrorCreate (e : PBError) : Bool :=
  match e.data with
  | some d =>
    d.dateField.any (fun f => f.code == "validation_not_unique") ||
    d.taskField.any (fun f => f.code == "validation_not_unique") ||
    d.userField.any (fun f => f.code == "validation_not_unique")
  | none => false

/-- Console warning emitted when the racing record exists but no retrieval
path could fetch it. -/
def recoverWarnMsg : String :=
  "Record exists but could not be retrieved. Caller should reload data."

/-- The post-violation re-probe loop of `createDailyLogIfNeeded`
(3 attempts): a found record is returned; a thrown auto-cancellation before
the last attempt sleeps 300 and retries; any other outcome moves on. -/
def recoverLoop (env : Env) (u t nd : String) :
    List Nat → St → Option DailyLog × St
  | [], s => (none, s)
  | attempt :: rest, s =>
    let (r, s1) := getDailyLogByTaskAndDateCore env s u t nd
    match r with
    | .ok (some record) => (some record, s1)
    | .ok none => recoverLoop env u t nd rest s1
    | .error e =>
      if strContains e.message "autocancelled" && attempt < 2 then
        recoverLoop env u t nd rest (pushDelay s1 300)
      else recoverLoop env u t nd rest s1

/-- The last-resort fallback of `createDailyLogIfNeeded`: fetch the full log
set of the user and linear-scan it for the `(task, day)` match; a failed
fetch warns and reports `null`. -/
def recoverFallback (env : Env) (s : St) (u t nd : String) :
    Option DailyLog × St :=
  let (r, s1) := getDailyLogsCore env s u none none
  match r with
  | .ok allLogs =>
    (allLogs.find? (fun log =>
       log.task == t && normalizeDate log.date == nd), s1)
  | .error _ => (none, pushWarn s1 recoverWarnMsg)

/-- The whole uniqueness-violation recovery of `createDailyLogIfNeeded`:
sleep 300, re-probe up to 3 times, then fall back to the full-set scan.
All outcomes are normal returns: this path never throws. -/
def recoverExisting (env : Env) (s : St) (u t nd : String) :
    Option DailyLog × St :=
  let (r, s1) := recoverLoop env u t nd [0, 1, 2] (pushDelay s 300)
  match r with
  | some record => (some record, s1)
  | none => recoverFallback env s1 u t nd

/-- The thrown message a non-unique create failure is wrapped in, built from
the resolved payload (field errors are serialized name by name; an absent
payload keeps the default text).  The serialization of a field error is
abbreviated to its code. -/
def buildCreateErrMsg (e : PBError) : String :=
  match e.data with
  | none => "Failed to create record."
  | some d =>
    let fieldErrors :=
      (match d.dateField with
       | some f => ["date: " ++ f.code]
       | none => []) ++
      (match d.taskField with
       | some f => ["task: " ++ f.code]
       | none => []) ++
      (match d.userField with
       | some f => ["user: " ++ f.code]
       | none => [])
    if fieldErrors.length > 0 then String.intercalate ", " fieldErrors
    else "Failed to create record."

/-- Source `createDailyLogIfNeeded` (authenticated part): probe up to 3
times, create with default `value_bool = false` when nothing was found,
absorb a uniqueness violation through the recovery path, and throw a
detailed message on any other create failure. -/
def createDailyLogIfNeededCore (env : Env) (s : St) (u t date : String) :
    Except Err (Option DailyLog) × St :=
  let nd := normalizeDate date
  let (existing, s1) := preCheckLoop env u t nd [0, 1, 2] s
  match existing with
  | some log => (.ok (some log), s1)
  | none =>
    let iso := nd ++ "T00:00:00.000Z"
    let (cres, s2) := doCreateLog env s1 t iso u (some false)
    match cres with
    | .ok record => (.ok (some record), s2)
    | .error e =>
      if hasUniqueErrorCreate e || (e.status == some 400 && e.data.isSome) then
        let (o, s3) := recoverExisting env s2 u t nd
        (.ok o, s3)
      else (.error (.msg (buildCreateErrMsg e)), s2)

/-! ## Mutation Applier (source `updateDailyLog`) -/

/-- A JavaScript optional value: missing (`undefined`), explicit `null`, or
present. -/
inductive JsVal (α : Type) where
  | undef
  | null
  | val (a : α)
deriving DecidableEq

/-- The sparse update input (`Partial<DailyLog>` restricted to the three
mutable fields the function reads). -/
structure UpdateInput where
  value_bool : JsVal Bool
  value_number : JsVal Int
  note : JsVal String
deriving DecidableEq

/-- The payload actually sent: a field is either present with a value or
absent from the object altogether. -/
structure CleanData where
  value_bool : Option Bool
  value_number : Option Int
  note : Option String
deriving DecidableEq

/-- The payload construction of `updateDailyLog`: only fields that are
neither `undefined` nor `null` are included, and for the note also the empty
string is excluded. -/
def buildCleanData (d : UpdateInput) : CleanData :=
  { value_bool :=
      match d.value_bool with
      | .val b => some b
      | _ => none,
    value_number :=
      match d.value_number with
      | .val n => some n
      | _ => none,
    note :=
      match d.note with
      | .val s => if s == "" then none else some s
      | _ => none }

/-- Modelled from the spec: the store-side sparse-update semantics of
section 6 — a field present in the payload is overwritten, an omitted field
is left untouched server-side. -/
def applyUpdate (log : DailyLog) (c : CleanData) : DailyLog :=
  { log with
    value_bool :=
      match c.value_bool with
      | some b => some b
      | none => log.value_bool,
    value_number :=
      match c.value_number with
      | some n => some n
      | none => log.value_number,
    note :=
      match c.note with
      | some s => some s
      | none => log.note }

/-- The 404 error an update on a missing record reports. -/
def notFoundError : PBError :=
  { status := some 404, message := "The requested resource was not found.",
    data := none }

/-- Modelled from the spec: an ideal `daily_logs` update. -/
def storeUpdateLog (st : Store) (logId : String) (c : CleanData) :
    Except PBError (DailyLog × Store) :=
  match st.logs.find? (fun r => r.id == logId) with
  | none => .error notFoundError
  | some log =>
    let updated := applyUpdate log c
    .ok (updated,
      { st with logs := st.logs.map (fun r => if r.id == logId then updated else r) })

/-- One `daily_logs` update call. -/
def doUpdateLog (env : Env) (s : St) (logId : String) (c : CleanData) :
    Except PBError DailyLog × St :=
  let s1 := { s with calls := s.calls + 1 }
  match env.faults s.calls with
  | some e => (.error e, s1)
  | none =>
    match storeUpdateLog s.store logId c with
    | .error e => (.error e, s1)
    | .ok (record, store1) => (.ok record, { s1 with store := store1 })

/-- Source `updateDailyLog` (authenticated part). -/
def updateDailyLogCore (env : Env) (s : St) (logId : String)
    (data : UpdateInput) : Except Err DailyLog × St :=
  let cleanData := buildCleanData data
  let (r, s1) := doUpdateLog env s logId cleanData
  match r with
  | .ok record => (.ok record, s1)
  | .error e =>
    if e.status == some 400 then
      (.error (.msg ("Failed to update: " ++ e.message)), s1)
    else if e.status == some 403 then
      (.error (.msg accessDeniedMsg), s1)
    else (.error (.msg ("Failed to update daily log: " ++ e.message)), s1)

/-- One `daily_logs` delete call. -/
def doDeleteLog (env : Env) (s : St) (logId : String) :
    Except PBError Unit × St :=
  let s1 := { s with calls := s.calls + 1 }
  match env.faults s.calls with
  | some e => (.error e, s1)
  | none =>
    if s.store.logs.any (fun r => r.id == logId) then
      (.ok (), { s1 with store :=
        { s1.store with logs := s1.store.logs.filter (fun r => !(r.id == logId)) } })
    else (.error notFoundError, s1)

/-- Source `deleteDailyLog` (authenticated part). -/
def deleteDailyLogCore (env : Env) (s : St) (logId : String) :
    Except Err Bool × St :=
  let (r, s1) := doDeleteLog env s logId
  match r with
  | .ok _ => (.ok true, s1)
  | .error e =>
    if e.status == some 403 then (.error (.msg accessDeniedMsg), s1)
    else (.error (.pb e), s1)

/-! ## Task operations (source `getTasks`, `createTask`, `updateTask`,
`deleteTask`)

Creation and update payloads (`Partial<Task>`) are forwarded verbatim to the
store; they are modelled as full task records, with the store assigning the
identity on create.  Page sort order is not modelled (pages come back in
store order). -/

def invalidTaskFilterMsg (e : PBError) : String :=
  "Invalid filter syntax. Error: " ++ e.message ++
  ". Please check that the user and type fields exist in the tasks collection."

def accessDeniedTasksMsg : String :=
  "Access denied. Please check your PocketBase collection rules. The tasks " ++
  "collection should allow authenticated users to read their own records."

def fetchTasksFailMsg (e : PBError) : String :=
  "Failed to fetch tasks: " ++ e.message

/-- Modelled from the spec: an ideal `tasks` query (user equality plus the
optional type equality). -/
def storeQueryTasks (st : Store) (u : String) (ty : Option TaskType) :
    List Task :=
  st.tasks.filter (fun r =>
    r.user == u &&
    (match ty with
     | some v => decide (r.type = v)
     | none => true))

/-- One `tasks` query call. -/
def doQueryTasks (env : Env) (s : St) (u : String) (ty : Option TaskType) :
    Except PBError (List Task) × St :=
  let s1 := { s with calls := s.calls + 1 }
  match env.faults s.calls with
  | some e => (.error e, s1)
  | none => (.ok (storeQueryTasks s.store u ty), s1)

/-- Source `getTasks` (authenticated part). -/
def getTasksCore (env : Env) (s : St) (u : String) (ty : Option TaskType) :
    Except Err (List Task) × St :=
  let (r, s1) := doQueryTasks env s u ty
  match r with
  | .ok records => (.ok records, s1)
  | .error e =>
    if isAutocancelled e then (.ok [], s1)
    else if e.status == some 400 then
      (.error (.msg (invalidTaskFilterMsg e)), s1)
    else if e.status == some 403 then
      (.error (.msg accessDeniedTasksMsg), s1)
    else (.error (.msg (fetchTasksFailMsg e)), s1)

/-- One `tasks` create call. -/
def doCreateTask (env : Env) (s : St) (payload : Task) :
    Except PBError Task × St :=
  let s1 := { s with calls := s.calls + 1 }
  match env.faults s.calls with
  | some e => (.error e, s1)
  | none =>
    let record := { payload with id := "task" ++ toString s.store.nextId }
    (.ok record, { s1 with store :=
      { s1.store with tasks := s1.store.tasks ++ [record],
                      nextId := s1.store.nextId + 1 } })

/-- Source `createTask` (authenticated part): a 403 is wrapped, anything
else is re-thrown raw. -/
def createTaskCore (env : Env) (s : St) (payload : Task) :
    Except Err Task × St :=
  let (r, s1) := doCreateTask env s payload
  match r with
  | .ok record => (.ok record, s1)
  | .error e =>
    if e.status == some 403 then (.error (.msg accessDeniedMsg), s1)
    else (.error (.pb e), s1)

/-- One `tasks` update call. -/
def doUpdateTask (env : Env) (s : St) (id : String) (payload : Task) :
    Except PBError Task × St :=
  let s1 := { s with calls := s.calls + 1 }
  match env.faults s.calls with
  | some e => (.error e, s1)
  | none =>
    match s.store.tasks.find? (fun r => r.id == id) with
    | none => (.error notFoundError, s1)
    | some _ =>
      let updated := { payload with id := id }
      (.ok updated, { s1 with store :=
        { s1.store with tasks :=
            (s1.store.tasks.map (fun r => if r.id == id then updated else r)) } })

/-- Source `updateTask` (authenticated part). -/
def updateTaskCore (env : Env) (s : St) (id : String) (payload : Task) :
    Except Err Task × St :=
  let (r, s1) := doUpdateTask env s id payload
  match r with
  | .ok record => (.ok record, s1)
  | .error e =>
    if e.status == some 403 then (.error (.msg accessDeniedMsg), s1)
    else (.error (.pb e), s1)

/-- One `tasks` delete call. -/
def doDeleteTask (env : Env) (s : St) (id : String) :
    Except PBError Unit × St :=
  let s1 := { s with calls := s.calls + 1 }
  match env.faults s.calls with
  | some e => (.error e, s1)
  | none =>
    if s.store.tasks.any (fun r => r.id == id) then
      (.ok (), { s1 with store :=
        { s1.store with tasks := s1.store.tasks.filter (fun r => !(r.id == id)) } })
    else (.error notFoundError, s1)

/-- Source `deleteTask` (authenticated part). -/
def deleteTaskCore (env : Env) (s : St) (id : String) : Except Err Bool × St :=
  let (r, s1) := doDeleteTask env s id
  match r with
  | .ok _ => (.ok true, s1)
  | .error e =>
    if e.status == some 403 then (.error (.msg accessDeniedMsg), s1)
    else (.error (.pb e), s1)

/-! ## Goal progress operations (source `getGoalProgress`,
`createOrUpdateGoalProgress`) -/

def invalidProgressFilterMsg (e : PBError) : String :=
  "Invalid filter syntax: " ++ e.message ++
  ". Please check that the fields exist in the goal_progress collection."

def fetchProgressFailMsg (e : PBError) : String :=
  "Failed to fetch goal progress: " ++ e.message

/-- Modelled from the spec: an ideal `goal_progress` query (equality
predicates only; the upsert filter compares the date field verbatim). -/
def storeQueryProgress (st : Store) (u : String)
    (taskOpt dateOpt : Option String) : List GoalProgress :=
  st.progress.filter (fun r =>
    r.user == u &&
    (match taskOpt with
     | some t => r.task == t
     | none => true) &&
    (match dateOpt with
     | some d => r.date == d
     | none => true))

/-- One `goal_progress` query call. -/
def doQueryProgress (env : Env) (s : St) (u : String)
    (taskOpt dateOpt : Option String) :
    Except PBError (List GoalProgress) × St :=
  let s1 := { s with calls := s.calls + 1 }
  match env.faults s.calls with
  | some e => (.error e, s1)
  | none => (.ok (storeQueryProgress s.store u taskOpt dateOpt), s1)

/-- Source `getGoalProgress` (authenticated part). -/
def getGoalProgressCore (env : Env) (s : St) (u : String)
    (taskOpt : Option String) : Except Err (List GoalProgress) × St :=
  let (r, s1) := doQueryProgress env s u taskOpt none
  match r with
  | .ok records => (.ok records, s1)
  | .error e =>
    if isAutocancelled e then (.ok [], s1)
    else if e.status == some 400 then
      (.error (.msg (invalidProgressFilterMsg e)), s1)
    else if e.status == some 403 then
      (.error (.msg accessDeniedMsg), s1)
    else (.error (.msg (fetchProgressFailMsg e)), s1)

/-- One `goal_progress` create call. -/
def doCreateProgress (env : Env) (s : St) (payload : GoalProgress) :
    Except PBError GoalProgress × St :=
  let s1 := { s with calls := s.calls + 1 }
  match env.faults s.calls with
  | some e => (.error e, s1)
  | none =>
    let record := { payload with id := "gp" ++ toString s.store.nextId }
    (.ok record, { s1 with store :=
      { s1.store with progress := s1.store.progress ++ [record],
                      nextId := s1.store.nextId + 1 } })

/-- One `goal_progress` update call. -/
def doUpdateProgress (env : Env) (s : St) (id : String)
    (payload : GoalProgress) : Except PBError GoalProgress × St :=
  let s1 := { s with calls := s.calls + 1 }
  match env.faults s.calls with
  | some e => (.error e, s1)
  | none =>
    match s.store.progress.find? (fun r => r.id == id) with
    | none => (.error notFoundError, s1)
    | some _ =>
      let updated := { payload with id := id }
      (.ok updated, { s1 with store :=
        { s1.store with progress :=
            (s1.store.progress.map (fun r => if r.id == id then updated else r)) } })

/-- Source `createOrUpdateGoalProgress` (authenticated part): look for an
existing entry for the exact (user, task, date), update the first hit or
create a new one; a 403 anywhere is wrapped, anything else is re-thrown. -/
def createOrUpdateGoalProgressCore (env : Env) (s : St)
    (payload : GoalProgress) : Except Err GoalProgress × St :=
  let (q, s1) :=
    doQueryProgress env s payload.user (some payload.task) (some payload.date)
  match q with
  | .error e =>
    if e.status == some 403 then (.error (.msg accessDeniedMsg), s1)
    else (.error (.pb e), s1)
  | .ok records =>
    match records.head? with
    | some existing =>
      let (r, s2) := doUpdateProgress env s1 existing.id payload
      (match r with
       | .ok record => (.ok record, s2)
       | .error e =>
         if e.status == some 403 then (.error (.msg accessDeniedMsg), s2)
         else (.error (.pb e), s2))
    | none =>
      let (r, s2) := doCreateProgress env s1 payload
      (match r with
       | .ok record => (.ok record, s2)
       | .error e =>
         if e.status == some 403 then (.error (.msg accessDeniedMsg), s2)
         else (.error (.pb e), s2))

/-! ## Authentication gate and the exported service operations -/

/-- The client auth store: a validity flag and the optional user model. -/
structure AuthStore where
  isValid : Bool
  model : Option String
deriving DecidableEq

/-- Source helper `ensureAuthenticated`: throws unless the auth store is
valid and carries a user model. -/
def ensureAuthenticated (auth : AuthStore) : Except Err Unit :=
  if !auth.isValid || auth.model.isNone then .error (.msg authMsg)
  else .ok ()

/-- A valid authenticated session, used to state the claims about the
post-gate behaviour of the operations. -/
def okAuth : AuthStore := { isValid := true, model := some "user-record" }

def getTasks (auth : AuthStore) (env : Env) (s : St) (u : String)
    (ty : Option TaskType) : Except Err (List Task) × St :=
  match ensureAuthenticated auth with
  | .error e => (.error e, s)
  | .ok _ => getTasksCore env s u ty

def createTask (auth : AuthStore) (env : Env) (s : St) (payload : Task) :
    Except Err Task × St :=
  match ensureAuthenticated auth with
  | .error e => (.error e, s)
  | .ok _ => createTaskCore env s payload

def updateTask (auth : AuthStore) (env : Env) (s : St) (id : String)
    (payload : Task) : Except Err Task × St :=
  match ensureAuthenticated auth with
  | .error e => (.error e, s)
  | .ok _ => updateTaskCore env s id payload

def deleteTask (auth : AuthStore) (env : Env) (s : St) (id : String) :
    Except Err Bool × St :=
  match ensureAuthenticated auth with
  | .error e => (.error e, s)
  | .ok _ => deleteTaskCore env s id

def getDailyLogs (auth : AuthStore) (env : Env) (s : St) (u : String)
    (taskOpt dateOpt : Option String) : Except Err (List DailyLog) × St :=
  match ensureAuthenticated auth with
  | .error e => (.error e, s)
  | .ok _ => getDailyLogsCore env s u taskOpt dateOpt

def getDailyLogByTaskAndDate (auth : AuthStore) (env : Env) (s : St)
    (u t date : String) : Except Err (Option DailyLog) × St :=
  match ensureAuthenticated auth with
  | .error e => (.error e, s)
  | .ok _ => getDailyLogByTaskAndDateCore env s u t date

def ensureDailyLogsExist (auth : AuthStore) (env : Env) (s : St) (u : String)
    (tasks : List Task) (date : String) : Except Err Unit × St :=
  match ensureAuthenticated auth with
  | .error e => (.error e, s)
  | .ok _ => (.ok (), ensureDailyLogsExistCore env s u tasks date)

def createDailyLogIfNeeded (auth : AuthStore) (env : Env) (s : St)
    (u t date : String) : Except Err (Option DailyLog) × St :=
  match ensureAuthenticated auth with
  | .error e => (.error e, s)
  | .ok _ => createDailyLogIfNeededCore env s u t date

def updateDailyLog (auth : AuthStore) (env : Env) (s : St) (logId : String)
    (data : UpdateInput) : Except Err DailyLog × St :=
  match ensureAuthenticated auth with
  | .error e => (.error e, s)
  | .ok _ => updateDailyLogCore env s logId data

def deleteDailyLog (auth : AuthStore) (env : Env) (s : St) (logId : String) :
    Except Err Bool × St :=
  match ensureAuthenticated auth with
  | .error e => (.error e, s)
  | .ok _ => deleteDailyLogCore env s logId

def getGoalProgress (auth : AuthStore) (env : Env) (s : St) (u : String)
    (taskOpt : Option String) : Except Err (List GoalProgress) × St :=
  match ensureAuthenticated auth with
  | .error e => (.error e, s)
  | .ok _ => getGoalProgressCore env s u taskOpt

def createOrUpdateGoalProgress (auth : AuthStore) (env : Env) (s : St)
    (payload : GoalProgress) : Except Err GoalProgress × St :=
  match ensureAuthenticated auth with
  | .error e => (.error e, s)
  | .ok _ => createOrUpdateGoalProgressCore env s payload

/-! ## Sample values used by the concrete witnesses -/

def emptyStore : Store :=
  { tasks := [], logs := [], progress := [], nextId := 0 }

/-- A fresh client state over the given `daily_logs` contents. -/
def initSt (logs : List DailyLog) : St :=
  { store := { emptyStore with logs := logs }, calls := 0, creates := [],
    delays := [], warns := [] }

def badAuth : AuthStore := { isValid := false, model := none }

def taskA : Task :=
  { id := "A", name := "task A", type := TaskType.daily,
    daily_mode := some DailyMode.checklist, target := none, unit := none,
    user := "u1", created := "", updated := "", description := none,
    tag := none }

def taskB : Task := { taskA with id := "B", name := "task B" }

def taskC : Task := { taskA with id := "C", name := "task C" }

def sampleProgress : GoalProgress :=
  { id := "", task := "t1", value := 1, date := "2024-01-15", user := "u1",
    created := "", updated := "" }

def sampleUpdate : UpdateInput :=
  { value_bool := JsVal.val true, value_number := JsVal.undef,
    note := JsVal.undef }

def sampleLog : DailyLog :=
  { id := "log0", task := "t1", date := "2024-01-15T00:00:00.000Z",
    value_bool := some false, value_number := some 5, note := some "n",
    user := "u1", created := "", updated := "" }

/-! ## C7 and C8: the Date Normalizer -/

/-- C7: for any well-formed date-like input — a bare `YYYY-MM-DD` day string
or an ISO timestamp `day ++ "T" ++ rest` — `normalizeDate` returns exactly
the zero-padded, sortable `YYYY-MM-DD` day key.  The function is a plain
total Lean function (pure, never fails). -/
theorem normalizeDate_wellformed (x day rest : String)
    (hk : isDayKey day = true) (hx : x = day ∨ x = day ++ "T" ++ rest) :
    normalizeDate x = day ∧ isDayKey (normalizeDate x) = true := by
  have hnoT : hasChar 'T' day.data = false := no_T_of_isDayKey day hk
  rcases hx with hx | hx
  · rw [hx, normalizeDate_of_no_T day hnoT]
    exact ⟨rfl, hk⟩
  · rw [hx, normalizeDate_append_T day rest hnoT]
    exact ⟨rfl, hk⟩

theorem normalizeDate_wellformed_witness :
    normalizeDate "2024-01-15T10:30:00.000Z" = "2024-01-15" ∧
    isDayKey (normalizeDate "2024-01-15T10:30:00.000Z") = true :=
  normalizeDate_wellformed "2024-01-15T10:30:00.000Z" "2024-01-15"
    "10:30:00.000Z" (by decide) (Or.inr rfl)

/-- C8: `normalizeDate` is idempotent on every string input, and two inputs
of the same calendar day that differ only in their time-of-day component
(the part after the `T` separator) normalize to the same day key. -/
theorem normalizeDate_roundtrip (x day t1 t2 : String)
    (hday : hasChar 'T' day.data = false) :
    normalizeDate (normalizeDate x) = normalizeDate x ∧
    normalizeDate (day ++ "T" ++ t1) = normalizeDate (day ++ "T" ++ t2) := by
  refine ⟨normalizeDate_idem x, ?_⟩
  rw [normalizeDate_append_T day t1 hday, normalizeDate_append_T day t2 hday]

theorem normalizeDate_roundtrip_witness :
    normalizeDate (normalizeDate "2024-01-15T08:00:00Z") =
      normalizeDate "2024-01-15T08:00:00Z" ∧
    normalizeDate ("2024-01-15" ++ "T" ++ "08:00:00Z") =
      normalizeDate ("2024-01-15" ++ "T" ++ "23:59:59Z") :=
  normalizeDate_roundtrip "2024-01-15T08:00:00Z" "2024-01-15" "08:00:00Z"
    "23:59:59Z" (by decide)

/-! ## C6 and C9: the Mutation Applier -/

/-- C6: the update payload contains only the fields explicitly present and
non-null in the sparse input (every payload field stems from a `val` input),
so omitted fields are left untouched server-side; in particular an input of
just `value_bool = true` leaves a pre-existing `value_number` unchanged
while setting the completion flag. -/
theorem updateDailyLog_sparse (d : UpdateInput) (log : DailyLog) :
    (∀ b, (buildCleanData d).value_bool = some b → d.value_bool = JsVal.val b) ∧
    (∀ n, (buildCleanData d).value_number = some n →
       d.value_number = JsVal.val n) ∧
    (∀ x, (buildCleanData d).note = some x → d.note = JsVal.val x ∧ x ≠ "") ∧
    (d = { value_bool := JsVal.val true, value_number := JsVal.undef,
           note := JsVal.undef } →
       (applyUpdate log (buildCleanData d)).value_number = log.value_number ∧
       (applyUpdate log (buildCleanData d)).value_bool = some true) := by
  refine ⟨?_, ?_, ?_, ?_⟩
  · intro b hb
    cases hv : d.value_bool with
    | undef => simp [buildCleanData, hv] at hb
    | null => simp [buildCleanData, hv] at hb
    | val a =>
      simp [buildCleanData, hv] at hb
      rw [hb]
  · intro n hn
    cases hv : d.value_number with
    | undef => simp [buildCleanData, hv] at hn
    | null => simp [buildCleanData, hv] at hn
    | val a =>
      simp [buildCleanData, hv] at hn
      rw [hn]
  · intro x hx
    cases hv : d.note with
    | undef => simp [buildCleanData, hv] at hx
    | null => simp [buildCleanData, hv] at hx
    | val a =>
      by_cases ha : a = ""
      · simp [buildCleanData, hv, ha] at hx
      · simp [buildCleanData, hv, ha] at hx
        subst hx
        exact ⟨rfl, ha⟩
  · intro hd
    subst hd
    exact ⟨rfl, rfl⟩

theorem updateDailyLog_sparse_witness :
    (applyUpdate sampleLog (buildCleanData sampleUpdate)).value_number =
      sampleLog.value_number ∧
    (applyUpdate sampleLog (buildCleanData sampleUpdate)).value_bool =
      some true :=
  (updateDailyLog_sparse sampleUpdate sampleLog).2.2.2 rfl

/-- C9: no `updateDailyLog` invocation can clear a stored field: an
`undefined` or `null` `value_bool`/`value_number`/`note` is stripped from
the payload before it is sent, as is a note equal to the empty string (the
payload type carries no null entries at all — a field is either present
with a value or absent), so passing `undefined`, `null` or `""` leaves the
stored value unchanged, and a populated stored field can never become
empty through an update. -/
theorem updateDailyLog_never_clears (d : UpdateInput) (log : DailyLog) :
    ((d.value_bool = JsVal.undef ∨ d.value_bool = JsVal.null) →
       (applyUpdate log (buildCleanData d)).value_bool = log.value_bool) ∧
    ((d.value_number = JsVal.undef ∨ d.value_number = JsVal.null) →
       (applyUpdate log (buildCleanData d)).value_number = log.value_number) ∧
    ((d.note = JsVal.undef ∨ d.note = JsVal.null ∨ d.note = JsVal.val "") →
       (applyUpdate log (buildCleanData d)).note = log.note) ∧
    (log.value_bool ≠ none →
       (applyUpdate log (buildCleanData d)).value_bool ≠ none) ∧
    (log.value_number ≠ none →
       (applyUpdate log (buildCleanData d)).value_number ≠ none) ∧
    (log.note ≠ none → (applyUpdate log (buildCleanData d)).note ≠ none) := by
  refine ⟨?_, ?_, ?_, ?_, ?_, ?_⟩
  · rintro (hv | hv) <;> simp [applyUpdate, buildCleanData, hv]
  · rintro (hv | hv) <;> simp [applyUpdate, buildCleanData, hv]
  · rintro (hv | hv | hv) <;> simp [applyUpdate, buildCleanData, hv]
  · intro hl
    cases hc : (buildCleanData d).value_bool with
    | none => simpa [applyUpdate, hc] using hl
    | some b => simp [applyUpdate, hc]
  · intro hl
    cases hc : (buildCleanData d).value_number with
    | none => simpa [applyUpdate, hc] using hl
    | some n => simp [applyUpdate, hc]
  · intro hl
    cases hc : (buildCleanData d).note with
    | none => simpa [applyUpdate, hc] using hl
    | some x => simp [applyUpdate, hc]

theorem updateDailyLog_never_clears_witness :
    (applyUpdate sampleLog
       (buildCleanData { value_bool := JsVal.null,
                         value_number := JsVal.undef,
                         note := JsVal.val "" })).value_bool =
      sampleLog.value_bool ∧
    (applyUpdate sampleLog
       (buildCleanData { value_bool := JsVal.null,
                         value_number := JsVal.undef,
                         note := JsVal.val "" })).value_number =
      sampleLog.value_number ∧
    (applyUpdate sampleLog
       (buildCleanData { value_bool := JsVal.null,
                         value_number := JsVal.undef,
                         note := JsVal.val "" })).note = sampleLog.note := by
  have h := updateDailyLog_never_clears
    { value_bool := JsVal.null, value_number := JsVal.undef,
      note := JsVal.val "" } sampleLog
  exact ⟨h.1 (Or.inr rfl), h.2.1 (Or.inl rfl), h.2.2.1 (Or.inr (Or.inr rfl))⟩

/-! ## C10: the authentication gate -/

/-- C10: every exported store operation first consults the auth store and,
when it is invalid or has no user model, throws the
"User is not authenticated. Please sign in." error before issuing any
request to the remote store (the returned state is the input state,
untouched). -/
theorem serviceOps_auth_gated (auth : AuthStore)
    (h : auth.isValid = false ∨ auth.model = none) :
    (∀ env s u ty, getTasks auth env s u ty = (.error (.msg authMsg), s)) ∧
    (∀ env s p, createTask auth env s p = (.error (.msg authMsg), s)) ∧
    (∀ env s i p, updateTask auth env s i p = (.error (.msg authMsg), s)) ∧
    (∀ env s i, deleteTask auth env s i = (.error (.msg authMsg), s)) ∧
    (∀ env s u a b, getDailyLogs auth env s u a b =
       (.error (.msg authMsg), s)) ∧
    (∀ env s u t dt, getDailyLogByTaskAndDate auth env s u t dt =
       (.error (.msg authMsg), s)) ∧
    (∀ env s u ts dt, ensureDailyLogsExist auth env s u ts dt =
       (.error (.msg authMsg), s)) ∧
    (∀ env s u t dt, createDailyLogIfNeeded auth env s u t dt =
       (.error (.msg authMsg), s)) ∧
    (∀ env s i dta, updateDailyLog auth env s i dta =
       (.error (.msg authMsg), s)) ∧
    (∀ env s i, deleteDailyLog auth env s i = (.error (.msg authMsg), s)) ∧
    (∀ env s u t, getGoalProgress auth env s u t =
       (.error (.msg authMsg), s)) ∧
    (∀ env s p, createOrUpdateGoalProgress auth env s p =
       (.error (.msg authMsg), s)) := by
  have hgate : ensureAuthenticated auth = .error (.msg authMsg) := by
    rcases h with h | h <;> simp [ensureAuthenticated, h]
  refine ⟨?_, ?_, ?_, ?_, ?_, ?_, ?_, ?_, ?_, ?_, ?_, ?_⟩ <;>
    intros <;>
    simp [getTasks, createTask, updateTask, deleteTask, getDailyLogs,
      getDailyLogByTaskAndDate, ensureDailyLogsExist, createDailyLogIfNeeded,
      updateDailyLog, deleteDailyLog, getGoalProgress,
      createOrUpdateGoalProgress, hgate]

theorem serviceOps_auth_gated_witness :
    getTasks badAuth idealEnv (initSt []) "u1" none =
      (.error (.msg authMsg), initSt []) ∧
    createTask badAuth idealEnv (initSt []) taskA =
      (.error (.msg authMsg), initSt []) ∧
    updateTask badAuth idealEnv (initSt []) "A" taskA =
      (.error (.msg authMsg), initSt []) ∧
    deleteTask badAuth idealEnv (initSt []) "A" =
      (.error (.msg authMsg), initSt []) ∧
    getDailyLogs badAuth idealEnv (initSt []) "u1" none none =
      (.error (.msg authMsg), initSt []) ∧
    getDailyLogByTaskAndDate badAuth idealEnv (initSt []) "u1" "t1"
      "2024-01-15" = (.error (.msg authMsg), initSt []) ∧
    ensureDailyLogsExist badAuth idealEnv (initSt []) "u1" [taskA]
      "2024-01-15" = (.error (.msg authMsg), initSt []) ∧
    createDailyLogIfNeeded badAuth idealEnv (initSt []) "u1" "t1"
      "2024-01-15" = (.error (.msg authMsg), initSt []) ∧
    updateDailyLog badAuth idealEnv (initSt []) "log0" sampleUpdate =
      (.error (.msg authMsg), initSt []) ∧
    deleteDailyLog badAuth idealEnv (initSt []) "log0" =
      (.error (.msg authMsg), initSt []) ∧
    getGoalProgress badAuth idealEnv (initSt []) "u1" none =
      (.error (.msg authMsg), initSt []) ∧
    createOrUpdateGoalProgress badAuth idealEnv (initSt []) sampleProgress =
      (.error (.msg authMsg), initSt []) := by
  have h := serviceOps_auth_gated badAuth (Or.inl rfl)
  exact ⟨h.1 _ _ _ _, h.2.1 _ _ _, h.2.2.1 _ _ _ _, h.2.2.2.1 _ _ _,
    h.2.2.2.2.1 _ _ _ _ _, h.2.2.2.2.2.1 _ _ _ _ _,
    h.2.2.2.2.2.2.1 _ _ _ _ _, h.2.2.2.2.2.2.2.1 _ _ _ _ _,
    h.2.2.2.2.2.2.2.2.1 _ _ _ _, h.2.2.2.2.2.2.2.2.2.1 _ _ _,
    h.2.2.2.2.2.2.2.2.2.2.1 _ _ _ _, h.2.2.2.2.2.2.2.2.2.2.2 _ _ _⟩

/-! ## C4: the Existence Prober retry policy -/

/-- Call `n` of the oracle is an injected auto-cancellation signal. -/
def isCancelFault (env : Env) (n : Nat) : Bool :=
  match env.faults n with
  | some e => isAutocancelled e
  | none => false

/-- C4: when the store signals cancellation, `getDailyLogByTaskAndDate`
retries up to 3 attempts with linearly increasing backoff
(`200 * attempt number`) and, still unresolved after the last attempt,
returns the "not found" result instead of raising; a permission error
(status 403) or malformed-query error (status 400) is thrown immediately
after a single call, with no retry and no backoff.  (The cancellation
marker is carried in the error message and is checked first, so the 403/400
cases are stated for errors that do not carry it.) -/
theorem getDailyLogByTaskAndDate_retry_policy (env : Env) (s : St)
    (u t d : String) :
    ((∀ i, i < 3 → isCancelFault env (s.calls + i) = true) →
       getDailyLogByTaskAndDate okAuth env s u t d =
         (.ok none,
          { s with calls := s.calls + 3, delays := s.delays ++ [200, 400] })) ∧
    (∀ e, env.faults s.calls = some e → isAutocancelled e = false →
       e.status = some 403 →
       getDailyLogByTaskAndDate okAuth env s u t d =
         (.error (.msg accessDeniedMsg), { s with calls := s.calls + 1 })) ∧
    (∀ e, env.faults s.calls = some e → isAutocancelled e = false →
       e.status = some 400 →
       getDailyLogByTaskAndDate okAuth env s u t d =
         (.error (.msg (invalidLogFilterMsg e)),
          { s with calls := s.calls + 1 })) := by
  refine ⟨?_, ?_, ?_⟩
  · intro h
    have h0 := h 0 (by omega)
    have h1 := h 1 (by omega)
    have h2 := h 2 (by omega)
    rw [Nat.add_zero] at h0
    cases hf0 : env.faults s.calls with
    | none =>
      simp only [isCancelFault, hf0] at h0
      exact absurd h0 (by simp)
    | some e0 =>
      simp only [isCancelFault, hf0] at h0
      cases hf1 : env.faults (s.calls + 1) with
      | none =>
        simp only [isCancelFault, hf1] at h1
        exact absurd h1 (by simp)
      | some e1 =>
        simp only [isCancelFault, hf1] at h1
        cases hf2 : env.faults (s.calls + 2) with
        | none =>
          simp only [isCancelFault, hf2] at h2
          exact absurd h2 (by simp)
        | some e2 =>
          simp only [isCancelFault, hf2] at h2
          simp [getDailyLogByTaskAndDate, ensureAuthenticated, okAuth,
            getDailyLogByTaskAndDateCore, getLogByTaskAndDateLoop, doQueryLogs,
            pushDelay, hf0, hf1, hf2, h0, h1, h2]
  · intro e hf hnc h403
    simp [getDailyLogByTaskAndDate, ensureAuthenticated, okAuth,
      getDailyLogByTaskAndDateCore, getLogByTaskAndDateLoop, doQueryLogs,
      hf, hnc, h403]
  · intro e hf hnc h400
    simp [getDailyLogByTaskAndDate, ensureAuthenticated, okAuth,
      getDailyLogByTaskAndDateCore, getLogByTaskAndDateLoop, doQueryLogs,
      hf, hnc, h400]

/-- The auto-cancellation error the PocketBase client raises. -/
def cancelError : PBError :=
  { status := some 0, message := "The request was autocancelled", data := none }

/-- An oracle cancelling every request. -/
def cancelEnv : Env :=
  { faults := fun _ => some cancelError, noise := fun _ => none,
    createFaults := fun _ => none }

theorem getDailyLogByTaskAndDate_retry_policy_witness :
    getDailyLogByTaskAndDate okAuth cancelEnv (initSt []) "u1" "t1"
      "2024-01-15" =
      (.ok none,
       { initSt [] with calls := (initSt []).calls + 3,
                        delays := (initSt []).delays ++ [200, 400] }) :=
  (getDailyLogByTaskAndDate_retry_policy cancelEnv (initSt []) "u1" "t1"
    "2024-01-15").1
    (fun i _ => by
      simp only [isCancelFault, cancelEnv]
      decide)

/-! ## C5: exact-match re-filtering in the Existence Prober -/

theorem getLogLoop_exact_match (env : Env) (u t nd : String) (r : DailyLog)
    (attempts : List Nat) :
    ∀ s : St,
      (getLogByTaskAndDateLoop env u t nd attempts s).1 = .ok (some r) →
      (normalizeDate r.date == nd) = true ∧
      ((∀ n rs, env.noise n = some rs → ∀ x ∈ rs, x.user = u ∧ x.task = t) →
        r.user = u ∧ r.task = t) := by
  induction attempts with
  | nil =>
    intro s h
    simp [getLogByTaskAndDateLoop] at h
  | cons attempt rest ih =>
    intro s h
    simp only [getLogByTaskAndDateLoop] at h
    cases hf : env.faults s.calls with
    | some e =>
      simp only [doQueryLogs, hf] at h
      by_cases hca : isAutocancelled e
      · simp only [hca, if_true] at h
        by_cases hlt : attempt < 2
        · simp only [hlt, if_true] at h
          exact ih _ h
        · simp only [hlt, if_false] at h
          exact absurd h (by simp)
      · rw [Bool.not_eq_true] at hca
        simp only [hca, Bool.false_eq_true, if_false] at h
        split at h
        · simp at h
        · split at h
          · simp at h
          · simp at h
    | none =>
      cases hn : env.noise s.calls with
      | some rs =>
        simp only [doQueryLogs, hf, hn] at h
        have hfind : rs.find? (fun item => normalizeDate item.date == nd) =
            some r := by
          simpa using h
        have hp := List.find?_some hfind
        simp only [] at hp
        refine ⟨hp, ?_⟩
        intro hnoise
        exact hnoise s.calls rs hn r (List.mem_of_find?_eq_some hfind)
      | none =>
        simp only [doQueryLogs, hf, hn] at h
        have hfind : (storeQueryLogs s.store u (some t) (some nd)).find?
            (fun item => normalizeDate item.date == nd) = some r := by
          simpa using h
        have hp := List.find?_some hfind
        simp only [] at hp
        refine ⟨hp, ?_⟩
        intro _
        have hmem := List.mem_of_find?_eq_some hfind
        simp only [storeQueryLogs, List.mem_filter] at hmem
        have hmatch := hmem.2
        simp only [logMatches, Bool.and_eq_true, beq_iff_eq] at hmatch
        exact ⟨hmatch.1.1, hmatch.1.2⟩

/-- C5: any record returned by `getDailyLogByTaskAndDate` has a normalized
date equal to the normalized requested day — the in-memory re-filter after
the range query guarantees it, so a record whose normalized date differs is
never returned even if the range query matched it — and, because the
store-side filter also selects on the user and task fields, the record is
for the requested user and task (the latter stated under the assumption
that any drifted page the store returns still respects the user/task
equality predicates of the filter). -/
theorem getDailyLogByTaskAndDate_exact (env : Env) (s : St) (u t d : String)
    (r : DailyLog)
    (h : (getDailyLogByTaskAndDate okAuth env s u t d).1 = .ok (some r)) :
    normalizeDate r.date = normalizeDate d ∧
    ((∀ n rs, env.noise n = some rs → ∀ x ∈ rs, x.user = u ∧ x.task = t) →
      r.user = u ∧ r.task = t) := by
  have hcore : (getLogByTaskAndDateLoop env u t (normalizeDate d) [0, 1, 2]
      s).1 = .ok (some r) := by
    simpa [getDailyLogByTaskAndDate, ensureAuthenticated, okAuth,
      getDailyLogByTaskAndDateCore] using h
  have hres := getLogLoop_exact_match env u t (normalizeDate d) r [0, 1, 2]
    s hcore
  exact ⟨by simpa [beq_iff_eq] using hres.1, hres.2⟩

/-- A record the store might hand back with a drifted timestamp inside the
range page. -/
def witnessLog : DailyLog :=
  { id := "w1", task := "t1", date := "2024-01-15T09:00:00.000Z",
    value_bool := some true, value_number := none, note := none,
    user := "u1", created := "", updated := "" }

/-- An oracle answering every `daily_logs` query with the drifted page. -/
def noisyEnv : Env :=
  { faults := fun _ => none, noise := fun _ => some [witnessLog],
    createFaults := fun _ => none }

theorem getDailyLogByTaskAndDate_exact_witness :
    normalizeDate witnessLog.date = normalizeDate "2024-01-15" ∧
    (witnessLog.user = "u1" ∧ witnessLog.task = "t1") := by
  have h := getDailyLogByTaskAndDate_exact noisyEnv (initSt []) "u1" "t1"
    "2024-01-15" witnessLog rfl
  refine ⟨h.1, h.2 ?_⟩
  intro n rs hrs x hx
  simp only [noisyEnv] at hrs
  have hrs' : rs = [witnessLog] := by
    injection hrs with h12
    exact h12.symm
  subst hrs'
  simp only [List.mem_singleton] at hx
  subst hx
  exact ⟨rfl, rfl⟩

/-! ## Coverage machinery for the Batch Reconciler (claims C2 and C3) -/

/-- The store holds a log for `(task tid, user u, day nd)` (day compared on
normalized keys, matching both the ideal query filter and the uniqueness
constraint). -/
def coveredB (st : Store) (u tid nd : String) : Bool :=
  st.logs.any (fun r =>
    r.task == tid && r.user == u && normalizeDate r.date == nd)

theorem coveredB_append (st st' : Store) (u tid nd : String)
    (htail : ∃ tail, st'.logs = st.logs ++ tail)
    (h : coveredB st u tid nd = true) : coveredB st' u tid nd = true := by
  obtain ⟨tail, ht⟩ := htail
  rcases List.any_eq_true.1 h with ⟨r, hr, hp⟩
  exact List.any_eq_true.2 ⟨r, by simp [ht, hr], hp⟩

theorem doQueryLogs_state (env : Env) (s : St) (u : String)
    (a b : Option String) :
    (doQueryLogs env s u a b).2 = { s with calls := s.calls + 1 } := by
  cases hf : env.faults s.calls with
  | some e => simp [doQueryLogs, hf]
  | none =>
    cases hn : env.noise s.calls with
    | some rs => simp [doQueryLogs, hf, hn]
    | none => simp [doQueryLogs, hf, hn]

theorem getLogLoop_state (env : Env) (u t nd : String) (attempts : List Nat) :
    ∀ s : St, ∃ k ds,
      ((getLogByTaskAndDateLoop env u t nd attempts s).2).store = s.store ∧
      ((getLogByTaskAndDateLoop env u t nd attempts s).2).creates = s.creates ∧
      ((getLogByTaskAndDateLoop env u t nd attempts s).2).warns = s.warns ∧
      ((getLogByTaskAndDateLoop env u t nd attempts s).2).calls = s.calls + k ∧
      ((getLogByTaskAndDateLoop env u t nd attempts s).2).delays =
        s.delays ++ ds := by
  induction attempts with
  | nil =>
    intro s
    exact ⟨0, [], rfl, rfl, rfl, rfl, by simp [getLogByTaskAndDateLoop]⟩
  | cons attempt rest ih =>
    intro s
    rw [getLogByTaskAndDateLoop]
    have hq := doQueryLogs_state env s u (some t) (some nd)
    rcases hqe : doQueryLogs env s u (some t) (some nd) with ⟨r, s1⟩
    rw [hqe] at hq
    have hs1 : s1 = { s with calls := s.calls + 1 } := by simpa using hq
    subst hs1
    simp only []
    cases r with
    | ok records => exact ⟨1, [], by simp⟩
    | error e =>
      by_cases hca : isAutocancelled e
      · by_cases hlt : attempt < 2
        · simp only [hca, hlt, if_true]
          obtain ⟨k, ds, h1, h2, h3, h4, h5⟩ :=
            ih (pushDelay { s with calls := s.calls + 1 } (200 * (attempt + 1)))
          refine ⟨k + 1, 200 * (attempt + 1) :: ds, ?_, ?_, ?_, ?_, ?_⟩
          · rw [h1]; simp [pushDelay]
          · rw [h2]; simp [pushDelay]
          · rw [h3]; simp [pushDelay]
          · rw [h4]; simp [pushDelay]; omega
          · rw [h5]; simp [pushDelay]
        · simp only [hca, hlt, if_true, if_false]
          exact ⟨1, [], by simp⟩
      · rw [Bool.not_eq_true] at hca
        simp only [hca, Bool.false_eq_true, if_false]
        by_cases h400 : (e.status == some 400) = true
        · simp only [h400, if_true]
          exact ⟨1, [], by simp⟩
        · by_cases h403 : (e.status == some 403) = true
          · simp only [h400, h403, if_false, if_true]
            exact ⟨1, [], by simp⟩
          · simp only [h400, h403, if_false]
            exact ⟨1, [], by simp⟩

theorem getLogCore_clean (env : Env) (hf : ∀ n, env.faults n = none)
    (hn : ∀ n, env.noise n = none) (s : St) (u t nd : String) :
    getDailyLogByTaskAndDateCore env s u t nd =
      (.ok ((storeQueryLogs s.store u (some t) (some (normalizeDate nd))).find?
         (fun item => normalizeDate item.date == normalizeDate nd)),
       { s with calls := s.calls + 1 }) := by
  simp [getDailyLogByTaskAndDateCore, getLogByTaskAndDateLoop, doQueryLogs,
    hf s.calls, hn s.calls]

theorem getDailyLogsCore_clean (env : Env) (hf : ∀ n, env.faults n = none)
    (hn : ∀ n, env.noise n = none) (s : St) (u : String)
    (taskOpt : Option String) (d : String) :
    getDailyLogsCore env s u taskOpt (some d) =
      (.ok ((storeQueryLogs s.store u taskOpt (some (normalizeDate d))).filter
         (fun item => normalizeDate item.date == normalizeDate d)),
       { s with calls := s.calls + 1 }) := by
  simp [getDailyLogsCore, doQueryLogs, hf s.calls, hn s.calls]

theorem getLogCore_store (env : Env) (s : St) (u t nd : String) :
    ((getDailyLogByTaskAndDateCore env s u t nd).2).store = s.store ∧
    ((getDailyLogByTaskAndDateCore env s u t nd).2).creates = s.creates := by
  obtain ⟨k, ds, h1, h2, h3, h4, h5⟩ :=
    getLogLoop_state env u t (normalizeDate nd) [0, 1, 2] s
  exact ⟨h1, h2⟩

theorem doubleCheck_state (env : Env) (s : St) (u tid nd : String) :
    ((doubleCheck env s u tid nd).2).store = s.store ∧
    ((doubleCheck env s u tid nd).2).creates = s.creates := by
  rw [doubleCheck]
  rcases hq : getDailyLogByTaskAndDateCore env s u tid nd with ⟨r, s0⟩
  have h0 := getLogCore_store env s u tid nd
  rw [hq] at h0
  simp only [] at h0
  cases r with
  | ok o =>
    cases o with
    | some log => exact h0
    | none =>
      simp only []
      have h1 := getLogCore_store env s0 u tid nd
      rcases hq1 : getDailyLogByTaskAndDateCore env s0 u tid nd with ⟨r1, s1⟩
      rw [hq1] at h1
      simp only [] at h1
      exact ⟨h1.1.trans h0.1, h1.2.trans h0.2⟩
  | error e =>
    simp only []
    split
    · have h1 := getLogCore_store env (pushDelay s0 300) u tid nd
      rcases hq1 : getDailyLogByTaskAndDateCore env (pushDelay s0 300) u tid nd
        with ⟨r1, s1⟩
      rw [hq1] at h1
      simp only [] at h1
      have hpd : (pushDelay s0 300).store = s0.store ∧
          (pushDelay s0 300).creates = s0.creates := by simp [pushDelay]
      exact ⟨(h1.1.trans hpd.1).trans h0.1, (h1.2.trans hpd.2).trans h0.2⟩
    · exact h0

theorem doubleCheck_clean (env : Env) (hf : ∀ n, env.faults n = none)
    (hn : ∀ n, env.noise n = none) (s : St) (u tid nd : String) :
    ∃ k, doubleCheck env s u tid nd =
      ((storeQueryLogs s.store u (some tid) (some (normalizeDate nd))).find?
         (fun item => normalizeDate item.date == normalizeDate nd),
       { s with calls := s.calls + k }) := by
  rw [doubleCheck, getLogCore_clean env hf hn]
  cases hfind : (storeQueryLogs s.store u (some tid)
      (some (normalizeDate nd))).find?
      (fun item => normalizeDate item.date == normalizeDate nd) with
  | some log => exact ⟨1, by simp [hfind]⟩
  | none =>
    refine ⟨2, ?_⟩
    simp only [hfind]
    rw [getLogCore_clean env hf hn]
    simp [hfind]

theorem doCreateLog_mono (env : Env) (s : St) (tid date u : String)
    (vb : Option Bool) :
    ∃ tail, ((doCreateLog env s tid date u vb).2).store.logs =
      s.store.logs ++ tail ∧
      ((doCreateLog env s tid date u vb).2).warns = s.warns := by
  unfold doCreateLog
  cases hfa : env.faults s.calls with
  | some e => exact ⟨[], by simp [hfa]⟩
  | none =>
    cases hc : env.createFaults tid with
    | some e => exact ⟨[], by simp [hfa, hc]⟩
    | none =>
      unfold storeCreateLog
      by_cases hcond : (s.store.logs.any fun r =>
          r.task == tid && r.user == u &&
          normalizeDate r.date == normalizeDate date) = true
      · exact ⟨[], by simp [hfa, hc, hcond]⟩
      · rw [Bool.not_eq_true] at hcond
        exact ⟨[{ id := "log" ++ toString s.store.nextId, task := tid,
                  date := date, value_bool := vb, value_number := none,
                  note := none, user := u, created := "", updated := "" }],
          by simp [hfa, hc, hcond]⟩

theorem hasUnique_uniqueViolation :
    hasUniqueErrorEnsure uniqueViolationError = true := by decide

theorem ensureTaskStep_mono (env : Env) (s : St) (u tid nd : String) :
    ∃ tail, (ensureTaskStep env s u tid nd).store.logs =
      s.store.logs ++ tail := by
  rw [ensureTaskStep]
  rcases hdc : doubleCheck env s u tid nd with ⟨o, s1⟩
  have hst := doubleCheck_state env s u tid nd
  rw [hdc] at hst
  simp only [] at hst
  cases o with
  | some log => exact ⟨[], by simp [hst.1]⟩
  | none =>
    simp only []
    rcases hcr : doCreateLog env s1 tid (nd ++ "T00:00:00.000Z") u (some false)
      with ⟨cres, s2⟩
    obtain ⟨tail, htail, hwarn⟩ :=
      doCreateLog_mono env s1 tid (nd ++ "T00:00:00.000Z") u (some false)
    rw [hcr] at htail hwarn
    simp only [] at htail hwarn
    refine ⟨tail, ?_⟩
    have hgoal : s2.store.logs = s.store.logs ++ tail := by
      rw [htail, hst.1]
    cases cres with
    | ok record => exact hgoal
    | error e =>
      by_cases hu : (hasUniqueErrorEnsure e ||
          (e.status == some 400 && e.data.isSome)) = true
      · simp [hu, hgoal]
      · rw [Bool.not_eq_true] at hu
        simp [hu, pushWarn, hgoal]

theorem ensureTaskStep_covers (env : Env) (s : St) (u tid nd : String)
    (hf : ∀ n, env.faults n = none) (hn : ∀ n, env.noise n = none)
    (hc : env.createFaults tid = none) (hnd : normalizeDate nd = nd) :
    coveredB (ensureTaskStep env s u tid nd).store u tid nd = true := by
  obtain ⟨k, hdc⟩ := doubleCheck_clean env hf hn s u tid nd
  rw [hnd] at hdc
  rw [ensureTaskStep, hdc]
  cases hfind : (storeQueryLogs s.store u (some tid) (some nd)).find?
      (fun item => normalizeDate item.date == nd) with
  | some log =>
    simp only []
    have hmem := List.mem_of_find?_eq_some hfind
    have hp := List.find?_some hfind
    simp only [] at hp
    simp only [storeQueryLogs, List.mem_filter] at hmem
    refine List.any_eq_true.2 ⟨log, hmem.1, ?_⟩
    have hm := hmem.2
    simp only [logMatches, Bool.and_eq_true] at hm
    simp [hm.1.1, hm.1.2, hp]
  | none =>
    simp only []
    have hiso : normalizeDate (nd ++ "T00:00:00.000Z") = nd := by
      have h2 := normalizeDate_iso nd
      rw [hnd] at h2
      exact h2
    by_cases hcov : coveredB s.store u tid nd = true
    · rw [coveredB] at hcov
      simp only [doCreateLog, hf, hc, storeCreateLog, hiso, hcov, if_true]
      simp [hasUnique_uniqueViolation, coveredB, hcov]
    · rw [coveredB, Bool.not_eq_true] at hcov
      simp only [doCreateLog, hf, hc, storeCreateLog, hiso, hcov,
        Bool.false_eq_true, if_false]
      simp [coveredB, List.any_append, hasChar_append, hiso]

theorem ensureLoop_mono (env : Env) (u nd : String) (todo : List Task) :
    ∀ s : St, ∃ tail,
      (ensureLoop env u nd todo s).store.logs = s.store.logs ++ tail := by
  induction todo with
  | nil =>
    intro s
    exact ⟨[], by simp [ensureLoop]⟩
  | cons t0 rest ih =>
    intro s
    rw [ensureLoop]
    obtain ⟨tail1, h1⟩ := ensureTaskStep_mono env s u t0.id nd
    obtain ⟨tail2, h2⟩ := ih (ensureTaskStep env s u t0.id nd)
    exact ⟨tail1 ++ tail2, by rw [h2, h1, List.append_assoc]⟩

theorem ensureLoop_covers (env : Env) (u nd : String)
    (hf : ∀ n, env.faults n = none) (hn : ∀ n, env.noise n = none)
    (hnd : normalizeDate nd = nd) (todo : List Task) :
    ∀ (s : St) (task : Task), task ∈ todo →
      env.createFaults task.id = none →
      coveredB (ensureLoop env u nd todo s).store u task.id nd = true := by
  induction todo with
  | nil =>
    intro s task hmem _
    exact absurd hmem (List.not_mem_nil task)
  | cons t0 rest ih =>
    intro s task hmem hc
    rw [ensureLoop]
    rcases List.mem_cons.1 hmem with heq | hmem'
    · obtain ⟨tail, htail⟩ :=
        ensureLoop_mono env u nd rest (ensureTaskStep env s u t0.id nd)
      refine coveredB_append _ _ _ _ _ ⟨tail, htail⟩ ?_
      rw [heq]
      exact ensureTaskStep_covers env s u t0.id nd hf hn (heq ▸ hc) hnd
    · exact ih _ task hmem' hc

theorem ensureCore_covers (env : Env) (s : St) (u d : String)
    (tasks : List Task) (task : Task) (hmem : task ∈ tasks)
    (hf : ∀ n, env.faults n = none) (hn : ∀ n, env.noise n = none)
    (hc : env.createFaults task.id = none) :
    coveredB (ensureDailyLogsExistCore env s u tasks d).store u task.id
      (normalizeDate d) = true := by
  have hnd : normalizeDate (normalizeDate d) = normalizeDate d :=
    normalizeDate_idem d
  rw [ensureDailyLogsExistCore]
  have hlen : (tasks.length == 0) = false := by
    cases tasks with
    | nil => exact absurd hmem (List.not_mem_nil task)
    | cons a l => simp
  simp only [hlen, Bool.false_eq_true, if_false]
  rw [getDailyLogsCore_clean env hf hn]
  simp only [hnd]
  by_cases hcont : ((((storeQueryLogs s.store u none
        (some (normalizeDate d))).filter
        (fun item => normalizeDate item.date == normalizeDate d)).filter
        (fun log => normalizeDate log.date == normalizeDate d)).map
        (fun log => log.task)).contains task.id = true
  · have hexist := List.mem_of_elem_eq_true hcont
    rcases List.mem_map.1 hexist with ⟨log, hlmem, hltask⟩
    have hlmem1 := (List.mem_filter.1 hlmem).1
    have hlpred := (List.mem_filter.1 hlmem).2
    have hlmem2 := (List.mem_filter.1 hlmem1).1
    simp only [storeQueryLogs, List.mem_filter] at hlmem2
    have hm := hlmem2.2
    simp only [logMatches, Bool.and_eq_true] at hm
    have hcov : coveredB s.store u task.id (normalizeDate d) = true := by
      refine List.any_eq_true.2 ⟨log, hlmem2.1, ?_⟩
      have htask : (log.task == task.id) = true := by
        simp [hltask]
      rw [hnd] at hm
      simp [htask, hm.1, hm.2]
    obtain ⟨tail, htail⟩ := ensureLoop_mono env u (normalizeDate d)
      (tasks.filter (fun t0 => !((((storeQueryLogs s.store u none
        (some (normalizeDate d))).filter
        (fun item => normalizeDate item.date == normalizeDate d)).filter
        (fun log => normalizeDate log.date == normalizeDate d)).map
        (fun log => log.task)).contains t0.id))
      { s with calls := s.calls + 1 }
    exact coveredB_append _ _ _ _ _ ⟨tail, htail⟩ hcov
  · rw [Bool.not_eq_true] at hcont
    refine ensureLoop_covers env u (normalizeDate d) hf hn hnd _
      { s with calls := s.calls + 1 } task ?_ hc
    refine List.mem_filter.2 ⟨hmem, ?_⟩
    simp only [hcont]
    rfl

theorem ensureCore_no_new_creates (env : Env) (s : St) (u d : String)
    (tasks : List Task)
    (hf : ∀ n, env.faults n = none) (hn : ∀ n, env.noise n = none)
    (hcov : ∀ task ∈ tasks,
      coveredB s.store u task.id (normalizeDate d) = true) :
    (ensureDailyLogsExistCore env s u tasks d).creates = s.creates := by
  have hnd := normalizeDate_idem d
  rw [ensureDailyLogsExistCore]
  by_cases hlen : (tasks.length == 0) = true
  · simp [hlen]
  · rw [Bool.not_eq_true] at hlen
    simp only [hlen, Bool.false_eq_true, if_false]
    rw [getDailyLogsCore_clean env hf hn]
    simp only [hnd]
    have hneed : tasks.filter (fun t0 =>
        !((((storeQueryLogs s.store u none (some (normalizeDate d))).filter
           (fun item => normalizeDate item.date == normalizeDate d)).filter
           (fun log => normalizeDate log.date == normalizeDate d)).map
           (fun log => log.task)).contains t0.id) = [] := by
      rw [List.filter_eq_nil_iff]
      intro t0 ht0
      have hcovt := hcov t0 ht0
      rcases List.any_eq_true.1 hcovt with ⟨r, hrmem, hrp⟩
      simp only [Bool.and_eq_true] at hrp
      have hrq : r ∈ storeQueryLogs s.store u none (some (normalizeDate d)) := by
        refine List.mem_filter.2 ⟨hrmem, ?_⟩
        simp [logMatches, hrp.1.2, hnd, hrp.2]
      have hrf : r ∈ (storeQueryLogs s.store u none
          (some (normalizeDate d))).filter
          (fun item => normalizeDate item.date == normalizeDate d) :=
        List.mem_filter.2 ⟨hrq, hrp.2⟩
      have hrf2 : r ∈ ((storeQueryLogs s.store u none
          (some (normalizeDate d))).filter
          (fun item => normalizeDate item.date == normalizeDate d)).filter
          (fun log => normalizeDate log.date == normalizeDate d) :=
        List.mem_filter.2 ⟨hrf, hrp.2⟩
      have hidmem : t0.id ∈ (((storeQueryLogs s.store u none
          (some (normalizeDate d))).filter
          (fun item => normalizeDate item.date == normalizeDate d)).filter
          (fun log => normalizeDate log.date == normalizeDate d)).map
          (fun log => log.task) :=
        List.mem_map.2 ⟨r, hrf2, beq_iff_eq.1 hrp.1.1⟩
      have hcon : ((((storeQueryLogs s.store u none
          (some (normalizeDate d))).filter
          (fun item => normalizeDate item.date == normalizeDate d)).filter
          (fun log => normalizeDate log.date == normalizeDate d)).map
          (fun log => log.task)).contains t0.id = true :=
        List.elem_eq_true_of_mem hidmem
      simp only [hcon]
      decide
    rw [hneed]
    simp [ensureLoop]

theorem ensureDailyLogsExist_ok (env : Env) (s : St) (u : String)
    (tasks : List Task) (d : String) :
    ensureDailyLogsExist okAuth env s u tasks d =
      (.ok (), ensureDailyLogsExistCore env s u tasks d) := rfl

/-- C2: under a store that reflects the first call's writes (no faults, no
read noise), running `ensureDailyLogsExist` twice in succession for the same
(user, day, task set) performs zero create operations during the second
call: the attempted-creates log is unchanged by the second run, because
after the first run every task is covered, the second snapshot covers all
tasks, and no task reaches the create step. -/
theorem ensureDailyLogsExist_idempotent (s : St) (u d : String)
    (tasks : List Task) :
    ((ensureDailyLogsExist okAuth idealEnv
        ((ensureDailyLogsExist okAuth idealEnv s u tasks d).2)
        u tasks d).2).creates =
      ((ensureDailyLogsExist okAuth idealEnv s u tasks d).2).creates := by
  rw [ensureDailyLogsExist_ok, ensureDailyLogsExist_ok]
  refine ensureCore_no_new_creates idealEnv _ u d tasks
    (fun n => rfl) (fun n => rfl) ?_
  intro task hmem
  exact ensureCore_covers idealEnv s u d tasks task hmem
    (fun n => rfl) (fun n => rfl) rfl

/-- A clean-read environment whose `daily_logs` creates fail according to
the per-task schedule `f`. -/
def isolationEnv (f : String → Option PBError) : Env :=
  { faults := fun _ => none, noise := fun _ => none, createFaults := f }

/-- C3: a fatal failure while creating one task's log inside
`ensureDailyLogsExist` is caught and does not stop the per-task loop: every
task whose own create is not the failing one still ends up covered by a log
for the day, and the run always returns normally (the per-task failure is
never propagated to the caller). -/
theorem ensureDailyLogsExist_partial_failure (f : String → Option PBError)
    (s : St) (u d : String) (tasks : List Task) (task : Task)
    (hmem : task ∈ tasks) (hok : f task.id = none) :
    coveredB ((ensureDailyLogsExist okAuth (isolationEnv f)
        s u tasks d).2).store u task.id (normalizeDate d) = true ∧
    (ensureDailyLogsExist okAuth (isolationEnv f) s u tasks d).1 =
      .ok () := by
  constructor
  · rw [ensureDailyLogsExist_ok]
    exact ensureCore_covers (isolationEnv f) s u d tasks task hmem
      (fun n => rfl) (fun n => rfl) hok
  · rw [ensureDailyLogsExist_ok]

/-- A fatal (non-uniqueness) store error. -/
def fatalError : PBError :=
  { status := some 500, message := "network failure", data := none }

/-- Fail exactly the create of task `B`. -/
def fatalB : String → Option PBError :=
  fun tid => if tid == "B" then some fatalError else none

theorem ensureDailyLogsExist_partial_failure_witness :
    coveredB ((ensureDailyLogsExist okAuth (isolationEnv fatalB)
        (initSt []) "u1" [taskA, taskB, taskC] "2024-01-15").2).store
      "u1" taskA.id (normalizeDate "2024-01-15") = true ∧
    coveredB ((ensureDailyLogsExist okAuth (isolationEnv fatalB)
        (initSt []) "u1" [taskA, taskB, taskC] "2024-01-15").2).store
      "u1" taskC.id (normalizeDate "2024-01-15") = true :=
  ⟨(ensureDailyLogsExist_partial_failure fatalB (initSt []) "u1" "2024-01-15"
      [taskA, taskB, taskC] taskA (by decide) (by decide)).1,
   (ensureDailyLogsExist_partial_failure fatalB (initSt []) "u1" "2024-01-15"
      [taskA, taskB, taskC] taskC (by decide) (by decide)).1⟩

/-! ## C1: uniqueness-violation recovery in the Idempotent Creator -/

/-- Read noise hiding the winning record from the three pre-create probes
(the store returns an empty page for the first three calls of the run). -/
def blindNoise : Nat → Option (List DailyLog) :=
  fun n => if n < 3 then some [] else none

/-- A racing run: the pre-create probes miss the winner, the create collides,
and every later read is ideal. -/
def raceEnv : Env :=
  { faults := fun _ => none, noise := blindNoise,
    createFaults := fun _ => none }

/-- A doomed run: the pre-create probes miss the winner, the create
collides, and every retrieval attempt after the create fails fatally. -/
def deadEnv : Env :=
  { faults := fun n => if 4 ≤ n then some fatalError else none,
    noise := blindNoise, createFaults := fun _ => none }

theorem hasUniqueCreate_uniqueViolation :
    hasUniqueErrorCreate uniqueViolationError = true := by decide

theorem getLogCore_blind (env : Env) (s : St) (u t dd : String)
    (hf : env.faults s.calls = none) (hn : env.noise s.calls = some []) :
    getDailyLogByTaskAndDateCore env s u t dd =
      (.ok none, { s with calls := s.calls + 1 }) := by
  simp [getDailyLogByTaskAndDateCore, getLogByTaskAndDateLoop, doQueryLogs,
    hf, hn]

theorem preCheck_blind (env : Env) (s : St) (u t dd : String)
    (h0f : env.faults s.calls = none) (h0n : env.noise s.calls = some [])
    (h1f : env.faults (s.calls + 1) = none)
    (h1n : env.noise (s.calls + 1) = some [])
    (h2f : env.faults (s.calls + 2) = none)
    (h2n : env.noise (s.calls + 2) = some []) :
    preCheckLoop env u t dd [0, 1, 2] s =
      (none, { s with calls := s.calls + 3 }) := by
  rw [preCheckLoop, getLogCore_blind env s u t dd h0f h0n]
  simp only []
  rw [preCheckLoop, getLogCore_blind env _ u t dd h1f h1n]
  simp only []
  rw [preCheckLoop, getLogCore_blind env _ u t dd h2f h2n]
  simp only [preCheckLoop]

theorem doCreateLog_collision (env : Env) (s : St) (u t d0 : String)
    (w : DailyLog) (hlogs : s.store.logs = [w])
    (ht : w.task = t) (hu : w.user = u)
    (hd : normalizeDate w.date = normalizeDate d0)
    (hf : env.faults s.calls = none) (hc : env.createFaults t = none) :
    doCreateLog env s t (normalizeDate d0 ++ "T00:00:00.000Z") u
      (some false) =
      (.error uniqueViolationError,
       { s with calls := s.calls + 1,
                creates := s.creates ++
                  [(t, normalizeDate d0 ++ "T00:00:00.000Z", u)] }) := by
  have hb : (w.task == t && w.user == u &&
      (normalizeDate w.date ==
        normalizeDate (normalizeDate d0 ++ "T00:00:00.000Z"))) = true := by
    simp [ht, hu, normalizeDate_iso, hd]
  simp [doCreateLog, hf, hc, storeCreateLog, hlogs, hb]

theorem getLogCore_finds (env : Env) (s : St) (u t d0 : String)
    (w : DailyLog) (hlogs : s.store.logs = [w])
    (ht : w.task = t) (hu : w.user = u)
    (hd : normalizeDate w.date = normalizeDate d0)
    (hf : env.faults s.calls = none) (hn : env.noise s.calls = none) :
    getDailyLogByTaskAndDateCore env s u t (normalizeDate d0) =
      (.ok (some w), { s with calls := s.calls + 1 }) := by
  simp [getDailyLogByTaskAndDateCore, getLogByTaskAndDateLoop, doQueryLogs,
    hf, hn, storeQueryLogs, hlogs, logMatches, ht, hu, hd,
    normalizeDate_idem]

theorem getLogCore_fatal (env : Env) (s : St) (u t dd : String)
    (hf : env.faults s.calls = some fatalError) :
    getDailyLogByTaskAndDateCore env s u t dd =
      (.error (.msg (fetchLogFailMsg fatalError)),
       { s with calls := s.calls + 1 }) := by
  have hca : isAutocancelled fatalError = false := by decide
  have h400 : (fatalError.status == some 400) = false := by decide
  have h403 : (fatalError.status == some 403) = false := by decide
  simp [getDailyLogByTaskAndDateCore, getLogByTaskAndDateLoop, doQueryLogs,
    hf, hca, h400, h403]

theorem getDailyLogsCore_fatal (env : Env) (s : St) (u : String)
    (hf : env.faults s.calls = some fatalError) :
    getDailyLogsCore env s u none none =
      (.error (.msg (fetchLogsFailMsg fatalError)),
       { s with calls := s.calls + 1 }) := by
  have hca : isAutocancelled fatalError = false := by decide
  have h400 : (fatalError.status == some 400) = false := by decide
  have h403 : (fatalError.status == some 403) = false := by decide
  simp [getDailyLogsCore, doQueryLogs, hf, hca, h400, h403]

theorem recoverExisting_race (w : DailyLog) (u t d : String)
    (ht : w.task = t) (hu : w.user = u)
    (hd : normalizeDate w.date = normalizeDate d)
    (s : St) (hcalls : 3 ≤ s.calls) (hlogs : s.store.logs = [w]) :
    ∃ s', recoverExisting raceEnv s u t (normalizeDate d) = (some w, s') ∧
      s'.creates = s.creates := by
  have hn : raceEnv.noise (pushDelay s 300).calls = none := by
    show (if s.calls < 3 then some ([] : List DailyLog) else none) = none
    rw [if_neg]
    omega
  rw [recoverExisting, recoverLoop,
    getLogCore_finds raceEnv (pushDelay s 300) u t d w
      (by simp [pushDelay, hlogs]) ht hu hd rfl hn]
  exact ⟨_, rfl, by simp [pushDelay]⟩

theorem recoverExisting_dead (u t d : String) (s : St)
    (hcalls : 4 ≤ s.calls) :
    ∃ s', recoverExisting deadEnv s u t (normalizeDate d) = (none, s') := by
  have hfm : strContains (fetchLogFailMsg fatalError) "autocancelled" =
      false := by decide
  have hf0 : deadEnv.faults (pushDelay s 300).calls = some fatalError := by
    show (if 4 ≤ s.calls then some fatalError else none) = some fatalError
    rw [if_pos hcalls]
  have hf1 : deadEnv.faults
      ({ pushDelay s 300 with
         calls := (pushDelay s 300).calls + 1 }).calls = some fatalError := by
    show (if 4 ≤ s.calls + 1 then some fatalError else none) =
      some fatalError
    rw [if_pos (by omega)]
  have hf2 : deadEnv.faults
      ({ { pushDelay s 300 with calls := (pushDelay s 300).calls + 1 } with
         calls := ({ pushDelay s 300 with
           calls := (pushDelay s 300).calls + 1 }).calls + 1 }).calls =
      some fatalError := by
    show (if 4 ≤ s.calls + 1 + 1 then some fatalError else none) =
      some fatalError
    rw [if_pos (by omega)]
  have hf3 : deadEnv.faults
      ({ { { pushDelay s 300 with
            calls := (pushDelay s 300).calls + 1 } with
           calls := ({ pushDelay s 300 with
             calls := (pushDelay s 300).calls + 1 }).calls + 1 } with
         calls := ({ { pushDelay s 300 with
             calls := (pushDelay s 300).calls + 1 } with
           calls := ({ pushDelay s 300 with
             calls := (pushDelay s 300).calls + 1 }).calls + 1 }).calls +
           1 }).calls = some fatalError := by
    show (if 4 ≤ s.calls + 1 + 1 + 1 then some fatalError else none) =
      some fatalError
    rw [if_pos (by omega)]
  rw [recoverExisting, recoverLoop,
    getLogCore_fatal deadEnv (pushDelay s 300) u t (normalizeDate d) hf0]
  simp only [Err.message, hfm, Bool.false_and, Bool.false_eq_true, if_false]
  rw [recoverLoop, getLogCore_fatal deadEnv _ u t (normalizeDate d) hf1]
  simp only [Err.message, hfm, Bool.false_and, Bool.false_eq_true, if_false]
  rw [recoverLoop, getLogCore_fatal deadEnv _ u t (normalizeDate d) hf2]
  simp only [Err.message, hfm, Bool.false_and, Bool.false_eq_true, if_false,
    recoverLoop]
  rw [recoverFallback, getDailyLogsCore_fatal deadEnv _ u hf3]
  exact ⟨_, rfl⟩

/-- C1: when the create attempt of `createDailyLogIfNeeded` fails with a
uniqueness-constraint violation, the function does not raise: it always
returns a normal result (first conjunct, for every environment and state).
Concretely, with a winning record `w` for the triple already in the store
and probes blinded before the create: the create is attempted exactly once
and collides, the re-probe retrieves the winner and the call returns the
very record `w` (same record identity); if instead every retrieval after
the collision fails (three re-probes with backoff, then the full-set
fallback scan), the call returns the inconclusive `none` instead of
raising. -/
theorem createDailyLogIfNeeded_race (w : DailyLog) (u t d : String)
    (ht : w.task = t) (hu : w.user = u)
    (hd : normalizeDate w.date = normalizeDate d) :
    (∀ (env : Env) (s : St) (e : PBError),
       (preCheckLoop env u t (normalizeDate d) [0, 1, 2] s).1 = none →
       (doCreateLog env
          ((preCheckLoop env u t (normalizeDate d) [0, 1, 2] s).2)
          t (normalizeDate d ++ "T00:00:00.000Z") u (some false)).1 =
         .error e →
       (hasUniqueErrorCreate e ||
         (e.status == some 400 && e.data.isSome)) = true →
       ∃ o s', createDailyLogIfNeeded okAuth env s u t d = (.ok o, s')) ∧
    (createDailyLogIfNeeded okAuth raceEnv (initSt [w]) u t d).1 =
      .ok (some w) ∧
    ((createDailyLogIfNeeded okAuth raceEnv (initSt [w]) u t d).2).creates =
      [(t, normalizeDate d ++ "T00:00:00.000Z", u)] ∧
    (createDailyLogIfNeeded okAuth deadEnv (initSt [w]) u t d).1 =
      .ok none := by
  have hwrap : ∀ (env : Env) (s : St),
      createDailyLogIfNeeded okAuth env s u t d =
        createDailyLogIfNeededCore env s u t d := fun _ _ => rfl
  have hfm : strContains (fetchLogFailMsg fatalError) "autocancelled" =
      false := by decide
  refine ⟨?_, ?_, ?_, ?_⟩
  · intro env s e hpre hcr hcond
    rw [hwrap, createDailyLogIfNeededCore]
    simp only []
    rcases hpq : preCheckLoop env u t (normalizeDate d) [0, 1, 2] s
      with ⟨o, s1⟩
    rw [hpq] at hpre hcr
    simp only [] at hpre hcr
    subst hpre
    rcases hcq : doCreateLog env s1 t (normalizeDate d ++ "T00:00:00.000Z")
      u (some false) with ⟨cres, s2⟩
    rw [hcq] at hcr
    simp only [] at hcr
    subst hcr
    simp only [hcond, if_true]
    exact ⟨(recoverExisting env s2 u t (normalizeDate d)).1,
      (recoverExisting env s2 u t (normalizeDate d)).2, rfl⟩
  · rw [hwrap, createDailyLogIfNeededCore]
    simp only []
    rcases hpq : preCheckLoop raceEnv u t (normalizeDate d) [0, 1, 2]
      (initSt [w]) with ⟨o, s1⟩
    have hpre := preCheck_blind raceEnv (initSt [w]) u t (normalizeDate d)
      rfl rfl rfl rfl rfl rfl
    rw [hpq] at hpre
    have ho : o = none := congrArg Prod.fst hpre
    have hs1 : s1 = { initSt [w] with calls := (initSt [w]).calls + 3 } :=
      congrArg Prod.snd hpre
    subst ho
    simp only []
    rcases hcq : doCreateLog raceEnv s1
      t (normalizeDate d ++ "T00:00:00.000Z") u (some false) with ⟨cres, s2⟩
    have hcol := doCreateLog_collision raceEnv s1 u t d w
      (by rw [hs1]; rfl) ht hu hd (by rw [hs1]; rfl) rfl
    rw [hcq] at hcol
    have hcres : cres = .error uniqueViolationError := congrArg Prod.fst hcol
    have hs2 : s2 = { s1 with calls := s1.calls + 1, creates := (s1.creates ++ [(t, normalizeDate d ++ "T00:00:00.000Z", u)]) } := congrArg Prod.snd hcol
    subst hcres
    simp only [hasUniqueCreate_uniqueViolation, Bool.true_or]
    obtain ⟨s', hrec, hcre⟩ := recoverExisting_race w u t d ht hu hd s2
      (by rw [hs2, hs1]; simp [initSt]) (by rw [hs2, hs1]; rfl)
    rw [hrec]
    simp
  · rw [hwrap, createDailyLogIfNeededCore]
    simp only []
    rcases hpq : preCheckLoop raceEnv u t (normalizeDate d) [0, 1, 2]
      (initSt [w]) with ⟨o, s1⟩
    have hpre := preCheck_blind raceEnv (initSt [w]) u t (normalizeDate d)
      rfl rfl rfl rfl rfl rfl
    rw [hpq] at hpre
    have ho : o = none := congrArg Prod.fst hpre
    have hs1 : s1 = { initSt [w] with calls := (initSt [w]).calls + 3 } :=
      congrArg Prod.snd hpre
    subst ho
    simp only []
    rcases hcq : doCreateLog raceEnv s1
      t (normalizeDate d ++ "T00:00:00.000Z") u (some false) with ⟨cres, s2⟩
    have hcol := doCreateLog_collision raceEnv s1 u t d w
      (by rw [hs1]; rfl) ht hu hd (by rw [hs1]; rfl) rfl
    rw [hcq] at hcol
    have hcres : cres = .error uniqueViolationError := congrArg Prod.fst hcol
    have hs2 : s2 = { s1 with calls := s1.calls + 1, creates := (s1.creates ++ [(t, normalizeDate d ++ "T00:00:00.000Z", u)]) } := congrArg Prod.snd hcol
    subst hcres
    simp only [hasUniqueCreate_uniqueViolation, Bool.true_or]
    obtain ⟨s', hrec, hcre⟩ := recoverExisting_race w u t d ht hu hd s2
      (by rw [hs2, hs1]; simp [initSt]) (by rw [hs2, hs1]; rfl)
    rw [hrec]
    simp [hcre, hs2, hs1, initSt, emptyStore]
  · rw [hwrap, createDailyLogIfNeededCore]
    simp only []
    rcases hpq : preCheckLoop deadEnv u t (normalizeDate d) [0, 1, 2]
      (initSt [w]) with ⟨o, s1⟩
    have hpre := preCheck_blind deadEnv (initSt [w]) u t (normalizeDate d)
      rfl rfl rfl rfl rfl rfl
    rw [hpq] at hpre
    have ho : o = none := congrArg Prod.fst hpre
    have hs1 : s1 = { initSt [w] with calls := (initSt [w]).calls + 3 } :=
      congrArg Prod.snd hpre
    subst ho
    simp only []
    rcases hcq : doCreateLog deadEnv s1
      t (normalizeDate d ++ "T00:00:00.000Z") u (some false) with ⟨cres, s2⟩
    have hcol := doCreateLog_collision deadEnv s1 u t d w
      (by rw [hs1]; rfl) ht hu hd (by rw [hs1]; rfl) rfl
    rw [hcq] at hcol
    have hcres : cres = .error uniqueViolationError := congrArg Prod.fst hcol
    have hs2 : s2 = { s1 with calls := s1.calls + 1, creates := (s1.creates ++ [(t, normalizeDate d ++ "T00:00:00.000Z", u)]) } := congrArg Prod.snd hcol
    subst hcres
    simp only [hasUniqueCreate_uniqueViolation, Bool.true_or]
    obtain ⟨s', hrec⟩ := recoverExisting_dead u t d s2
      (by rw [hs2, hs1]; simp [initSt])
    rw [hrec]
    simp

/-- The record the concurrent winner committed for (u1, t1, 2024-01-15). -/
def winnerLog : DailyLog :=
  { id := "winner", task := "t1", date := "2024-01-15T00:00:00.000Z",
    value_bool := some false, value_number := none, note := none,
    user := "u1", created := "", updated := "" }

theorem createDailyLogIfNeeded_race_witness :
    (createDailyLogIfNeeded okAuth raceEnv (initSt [winnerLog]) "u1" "t1"
       "2024-01-15").1 = .ok (some winnerLog) ∧
    (createDailyLogIfNeeded okAuth deadEnv (initSt [winnerLog]) "u1" "t1"
       "2024-01-15").1 = .ok none :=
  ⟨(createDailyLogIfNeeded_race winnerLog "u1" "t1" "2024-01-15"
      rfl rfl rfl).2.1,
   (createDailyLogIfNeeded_race winnerLog "u1" "t1" "2024-01-15"
      rfl rfl rfl).2.2.2⟩
